import Mathlib

/-!
Verification development for the `living-goats` playlist indexers
(`spotify_playlist_indexer.py`, `apple_music_playlist_indexer.py`).

The Python code is shallowly embedded:
* Python strings are modeled as `List Char` (`PyStr`);
* JSON / Python values handled dynamically by the scripts are modeled by the
  inductive type `Json`;
* code that can raise runs in `Except PyErr`; `dict.get`, list indexing and
  iteration raise exactly where the Python operations would
  (`AttributeError`, `IndexError`, `TypeError`, `KeyError`);
* the network is an oracle function passed in as a parameter (`none` models a
  `requests` exception / non-2xx status, which the scripts turn into the same
  `except requests.exceptions.RequestException` path);
* the filesystem of the artwork directory is an explicit `World` record which
  also logs every network fetch and every file write;
* Python floats are modeled as exact unnormalized fractions (`PyF`); no claim
  here depends on floating-point rounding;
* wall-clock timestamps are not modeled: the timestamp string used in output
  filenames is a parameter.
-/

/-- Python strings, modeled as their list of characters. -/
abbrev PyStr := List Char

/-- Convert a Lean string literal to the model type. -/
def pch (s : String) : PyStr := s.data

/-- Python `needle in hay` substring test. -/
def pyIn (needle : PyStr) : PyStr → Bool
  | [] => needle.isEmpty
  | c :: t => List.isPrefixOf needle (c :: t) || pyIn needle t

/-- Fuel-driven worker for `str.split(sep)`; with fuel at least the length of
the string it scans left to right, splitting at each occurrence of `sep`. -/
def pySplitAux (sep : PyStr) : Nat → PyStr → List PyStr
  | _, [] => [[]]
  | 0, s => [s]
  | fuel + 1, c :: rest =>
    if List.isPrefixOf sep (c :: rest) then
      [] :: pySplitAux sep fuel (List.drop sep.length (c :: rest))
    else
      match pySplitAux sep fuel rest with
      | [] => [[c]]
      | t :: ts => (c :: t) :: ts

/-- Python `s.split(sep)` for a non-empty separator (the scripts only ever
split on the non-empty literals `'playlist/'`, `'/playlist/'`, `'?'`, `'/'`). -/
def pySplit (sep s : PyStr) : List PyStr := pySplitAux sep s.length s

/-- Fuel-driven worker for `str.replace(old, new)`. -/
def pyReplaceAux (needle repl : PyStr) : Nat → PyStr → PyStr
  | _, [] => []
  | 0, s => s
  | fuel + 1, c :: rest =>
    if List.isPrefixOf needle (c :: rest) && !needle.isEmpty then
      repl ++ pyReplaceAux needle repl fuel (List.drop needle.length (c :: rest))
    else
      c :: pyReplaceAux needle repl fuel rest

/-- Python `s.replace(old, new)` for a non-empty `old` (the scripts only
replace the non-empty literals `'{w}x{h}'` and `' '`). -/
def pyReplace (needle repl s : PyStr) : PyStr := pyReplaceAux needle repl s.length s

/-- Python `f"{n:03d}"` for a non-negative integer: decimal digits left-padded
with zeros to width 3. -/
def zfill3 (n : Nat) : PyStr :=
  let s := (toString n).data
  if s.length ≥ 3 then s else List.replicate (3 - s.length) '0' ++ s

/-- The JSON-ish dynamic values the scripts pass around: JSON scalars, arrays
and objects.  Floats do not occur in any field the scripts read. -/
inductive Json where
  | str (chars : PyStr)
  | int (value : Int)
  | bool (flag : Bool)
  | null
  | arr (elems : List Json)
  | obj (entries : List (String × Json))

/-- The Python exceptions the embedded code can raise. -/
inductive PyErr where
  | attributeError
  | keyError
  | indexError
  | typeError
  | valueError
  deriving DecidableEq

/-- Python truthiness of a JSON value (`bool(x)`). -/
def isTruthy : Json → Bool
  | .null => false
  | .str s => !s.isEmpty
  | .int n => n != 0
  | .bool b => b
  | .arr xs => !xs.isEmpty
  | .obj kvs => !kvs.isEmpty

/-- `x is None` on a JSON value. -/
def Json.isNull : Json → Bool
  | .null => true
  | _ => false

/-- Python `x == s` / `x != s` against a string literal: equal only when `x`
is a string with the same characters (values of different types compare
unequal in Python). -/
def isStr (j : Json) (s : PyStr) : Bool :=
  match j with
  | .str t => t = s
  | _ => false

/-- Lookup of a key in an object's entry list (`None` when absent). -/
def jGet (kvs : List (String × Json)) (k : String) : Option Json :=
  (kvs.find? fun p => p.1 == k).map (·.2)

/-- Lookup with a default value. -/
def jGetD (kvs : List (String × Json)) (k : String) (d : Json) : Json :=
  (jGet kvs k).getD d

/-- `d.get(k, default)`.  Only dictionaries have a `.get` method; calling it
on any other value (including `None` stored under the key of an enclosing
object) raises `AttributeError`, exactly as in Python. -/
def pyGetD (j : Json) (k : String) (d : Json) : Except PyErr Json :=
  match j with
  | .obj kvs => .ok (jGetD kvs k d)
  | _ => .error .attributeError

/-- `xs[i]` on a JSON value: only lists are indexable here; an out-of-range
index raises `IndexError`, indexing a non-list raises `TypeError`. -/
def pyIndex (j : Json) (i : Nat) : Except PyErr Json :=
  match j with
  | .arr xs =>
    match xs.get? i with
    | some x => .ok x
    | none => .error .indexError
  | _ => .error .typeError

/-- Iterating a JSON value as Python iterates it: a list yields its elements,
a string yields its characters (as one-character strings), a dict yields its
keys; iterating `None` / numbers / booleans raises `TypeError`. -/
def pyIter (j : Json) : Except PyErr (List Json) :=
  match j with
  | .arr xs => .ok xs
  | .str s => .ok (s.map fun c => .str [c])
  | .obj kvs => .ok (kvs.map fun p => .str p.1.data)
  | _ => .error .typeError

/-- Python `str(x)` / f-string formatting of the values that reach f-strings
in the scripts.  The `repr` of containers is abbreviated (the scripts only
ever format strings, numbers and `None` into filenames). -/
def pyStr : Json → PyStr
  | .null => pch "None"
  | .str s => s
  | .int n => (toString n).data
  | .bool b => if b then pch "True" else pch "False"
  | .arr _ => pch "[...]"
  | .obj _ => pch "\x7b...\x7d"

mutual

/-- Structural equality of JSON values, used to model Python `==` where the
scripts compare column values (`nunique`, `set(...)`).  Object comparison is
keyed on the stored field order; the scripts only deduplicate strings and
`None`, where this agrees with Python. -/
def jsonBeq (x y : Json) : Bool :=
  match x, y with
  | .int a, .int b => a == b
  | .bool a, .bool b => a == b
  | .str a, .str b => a == b
  | .null, .null => true
  | .arr a, .arr b => jsonArrBeq a b
  | .obj a, .obj b => jsonObjBeq a b
  | _, _ => false

/-- `jsonBeq`, elementwise over array contents. -/
def jsonArrBeq (xs ys : List Json) : Bool :=
  match xs, ys with
  | [], [] => true
  | a :: arest, b :: brest => jsonBeq a b && jsonArrBeq arest brest
  | _, _ => false

/-- `jsonBeq`, entrywise over object fields. -/
def jsonObjBeq (xs ys : List (String × Json)) : Bool :=
  match xs, ys with
  | [], [] => true
  | a :: arest, b :: brest =>
    (a.1 == b.1 && jsonBeq a.2 b.2) && jsonObjBeq arest brest
  | _, _ => false

end

/-- First-occurrence deduplication, modeling `set(...)` / `pandas.nunique`
collapse of equal values (iteration order of a Python `set` is not otherwise
relied on by any claim). -/
def pyDedup (xs : List Json) : List Json :=
  xs.foldl (fun acc x => if acc.any (jsonBeq x) then acc else acc ++ [x]) []

/-- A Python float, modeled as an exact (unnormalized) fraction.  The scripts
only ever divide by the nonzero constants `1000*60*60` and a nonzero count. -/
structure PyF where
  num : Int
  den : Int
  deriving DecidableEq

/-- Embed an integer as a float (`float(n)`). -/
def PyF.ofInt (n : Int) : PyF := ⟨n, 1⟩

/-- Exact float division. -/
def PyF.div (a b : PyF) : PyF := ⟨a.num * b.den, a.den * b.num⟩

/-- The observable state of the artwork directory plus logs of the effects
performed: every URL fetched over the network (in order) and every file
written (in order).  `files` is the set of paths present in
`playlist_images/`. -/
structure World where
  files : List PyStr
  fetchLog : List Json
  writeLog : List PyStr

/-- A world with an empty artwork directory and empty logs. -/
def World.empty : World := ⟨[], [], []⟩

/-- Path of an artwork file (`self.images_dir / filename`). -/
def imagePath (filename : PyStr) : PyStr := pch "playlist_images/" ++ filename

/-- `SpotifyPlaylistIndexer.download_artwork` (lines 173-205).  The network is
the oracle `fetch` (`none` = `requests` exception or non-2xx status).  Returns
the local path (or `None`) and the resulting world.  The fetch is skipped when
the URL is falsy or the file already exists; a failed fetch leaves the
filesystem unchanged and returns `None`. -/
def spotifyDownloadArtwork (fetch : Json → Option PyStr) (w : World)
    (artwork_url : Json) (filename : PyStr) : Option PyStr × World :=
  if !(isTruthy artwork_url) then (none, w)
  else
    let file_path := imagePath filename
    if w.files.contains file_path then (some file_path, w)
    else
      match fetch artwork_url with
      | some _ =>
        (some file_path,
          { files := file_path :: w.files,
            fetchLog := w.fetchLog ++ [artwork_url],
            writeLog := w.writeLog ++ [file_path] })
      | none => (none, { w with fetchLog := w.fetchLog ++ [artwork_url] })

/-- `AppleMusicPlaylistIndexer.download_artwork` (lines 85-115).  A `'{w}x{h}'`
placeholder in the URL is first replaced by `'1200x1200'`; there is no
existence check: the fetch always happens and a successful fetch writes the
file, overwriting any existing one.  `'{w}x{h}' in artwork_url` on a non-string
URL raises `TypeError`, which is not a `requests` exception and so escapes the
`try` block. -/
def appleDownloadArtwork (fetch : Json → Option PyStr) (w : World)
    (artwork_url : Json) (filename : PyStr) : Except PyErr (Option PyStr × World) :=
  if !(isTruthy artwork_url) then .ok (none, w)
  else
    match artwork_url with
    | .str u =>
      let u' := if pyIn (pch "\x7bw\x7dx\x7bh\x7d") u then
          pyReplace (pch "\x7bw\x7dx\x7bh\x7d") (pch "1200x1200") u
        else u
      match fetch (.str u') with
      | some _ =>
        let file_path := imagePath filename
        .ok (some file_path,
          { files := if w.files.contains file_path then w.files else file_path :: w.files,
            fetchLog := w.fetchLog ++ [.str u'],
            writeLog := w.writeLog ++ [file_path] })
      | none => .ok (none, { w with fetchLog := w.fetchLog ++ [.str u'] })
    | _ => .error .typeError

/-- A character matched by the regex class `\w` (word character).  The model
covers the ASCII range; the handful of non-ASCII code points where Python's
unicode `\w` and `str.isalnum` differ are outside the model. -/
def wordChar (c : Char) : Bool := c.isAlphanum || c == '_'

/-- A character matched by the regex class `[-\s]` (whitespace or hyphen). -/
def dashSpaceChar (c : Char) : Bool := c.isWhitespace || c == '-'

/-- `re.sub(r'[-\s]+', '_', s)`: collapse every maximal run of whitespace or
hyphens into a single underscore.  The flag records whether the scan is
currently inside such a run. -/
def collapseRuns : Bool → PyStr → PyStr
  | _, [] => []
  | inRun, c :: t =>
    if dashSpaceChar c then
      if inRun then collapseRuns true t else '_' :: collapseRuns true t
    else c :: collapseRuns false t

/-- The artwork filename built in `SpotifyPlaylistIndexer.process_track`
(lines 266-271): format `f"{index:03d}_{artist}_{name}"`, drop characters
outside `[\w\s-]`, collapse `[-\s]+` runs to `'_'`, truncate to 100
characters, append `'.jpg'`. -/
def spotifySafeFilename (track_index : Nat) (artist name : PyStr) : PyStr :=
  let safe0 := zfill3 track_index ++ '_' :: artist ++ '_' :: name
  let safe1 := safe0.filter fun c => wordChar c || c.isWhitespace || c == '-'
  let safe2 := collapseRuns false safe1
  safe2.take 100 ++ pch ".jpg"

/-- The artwork filename built in `AppleMusicPlaylistIndexer.process_track`
(lines 154-158): format, keep characters that are alphanumeric or in
`(' ', '-', '_')`, strip trailing whitespace, replace spaces by underscores,
truncate to 100 characters, append `'.jpg'`. -/
def appleSafeFilename (track_index : Nat) (artist name : PyStr) : PyStr :=
  let safe0 := zfill3 track_index ++ '_' :: artist ++ '_' :: name
  let safe1 := safe0.filter fun c => c.isAlphanum || c == ' ' || c == '-' || c == '_'
  let safe2 := (safe1.reverse.dropWhile Char.isWhitespace).reverse
  let safe3 := (safe2.map fun c => if c == ' ' then '_' else c).take 100
  safe3 ++ pch ".jpg"

/-- The normalized track record built by `SpotifyPlaylistIndexer.process_track`
(lines 238-262): one field per key of the `track_info` dict literal. -/
structure SpTrackInfo where
  index : Nat
  id : Json
  name : Json
  artist_name : Json
  all_artists : List Json
  album_name : Json
  album_id : Json
  duration_ms : Json
  explicit : Json
  popularity : Json
  track_number : Json
  disc_number : Json
  release_date : Json
  release_date_precision : Json
  album_type : Json
  total_tracks : Json
  external_urls : Json
  preview_url : Json
  spotify_url : Json
  added_at : Json
  added_by : Json
  artwork_url : Json
  artwork_local_path : Option PyStr

/-- `artwork_url = album_images[0].get('url') if album_images else None`
(line 235). -/
def spotifyArtworkUrl (album_images : Json) : Except PyErr Json :=
  if isTruthy album_images then do
    let first ← pyIndex album_images 0
    pyGetD first "url" .null
  else pure .null

/-- The field mapping of `SpotifyPlaylistIndexer.process_track` after its
type guard (lines 224-278): builds the normalized record (whose `index` is
the given 1-based position) and performs the optional artwork download. -/
def spotifyProcessBody (fetch : Json → Option PyStr) (w : World)
    (track_item track_data : Json) (track_index : Nat) :
    Except PyErr (SpTrackInfo × World) := do
  let artistsJ ← pyGetD track_data "artists" (.arr [])
  let artistsL ← pyIter artistsJ
  let artist_names ← artistsL.mapM fun a => pyGetD a "name" (.str [])
  let primary_artist := artist_names.headD (.str (pch "Unknown Artist"))
  let album ← pyGetD track_data "album" (.obj [])
  let album_name ← pyGetD album "name" (.str (pch "Unknown Album"))
  let album_images ← pyGetD album "images" (.arr [])
  let artwork_url ← spotifyArtworkUrl album_images
  let id ← pyGetD track_data "id" .null
  let name ← pyGetD track_data "name" .null
  let album_id ← pyGetD album "id" .null
  let duration_ms ← pyGetD track_data "duration_ms" .null
  let explicit ← pyGetD track_data "explicit" (.bool false)
  let popularity ← pyGetD track_data "popularity" (.int 0)
  let track_number ← pyGetD track_data "track_number" .null
  let disc_number ← pyGetD track_data "disc_number" .null
  let release_date ← pyGetD album "release_date" .null
  let release_date_precision ← pyGetD album "release_date_precision" .null
  let album_type ← pyGetD album "album_type" .null
  let total_tracks ← pyGetD album "total_tracks" .null
  let external_urls ← pyGetD track_data "external_urls" (.obj [])
  let preview_url ← pyGetD track_data "preview_url" .null
  let spotify_url ← pyGetD external_urls "spotify" .null
  let added_at ← pyGetD track_item "added_at" .null
  let added_by_obj ← pyGetD track_item "added_by" (.obj [])
  let added_by ← pyGetD added_by_obj "id" .null
  let base : SpTrackInfo :=
    { index := track_index, id := id, name := name,
      artist_name := primary_artist, all_artists := artist_names,
      album_name := album_name, album_id := album_id,
      duration_ms := duration_ms, explicit := explicit,
      popularity := popularity, track_number := track_number,
      disc_number := disc_number, release_date := release_date,
      release_date_precision := release_date_precision,
      album_type := album_type, total_tracks := total_tracks,
      external_urls := external_urls, preview_url := preview_url,
      spotify_url := spotify_url, added_at := added_at,
      added_by := added_by, artwork_url := artwork_url,
      artwork_local_path := none }
  if isTruthy artwork_url then
    let safe := spotifySafeFilename track_index (pyStr primary_artist) (pyStr name)
    let dl := spotifyDownloadArtwork fetch w artwork_url safe
    match dl.1 with
    | some lp => return ({ base with artwork_local_path := some lp }, dl.2)
    | none => return (base, dl.2)
  else return (base, w)

/-- `SpotifyPlaylistIndexer.process_track` (lines 207-278).  Returns `none`
for dropped items (missing/falsy `track` object or type other than
`'track'`), otherwise the normalized record, together with the world after
the optional artwork download.  The post-guard field mapping is the separate
`spotifyProcessBody`. -/
def spotifyProcessTrack (fetch : Json → Option PyStr) (w : World)
    (track_item : Json) (track_index : Nat) :
    Except PyErr (Option SpTrackInfo × World) := do
  let track_data ← pyGetD track_item "track" (.obj [])
  if !(isTruthy track_data) then return (none, w)
  else do
    let ty ← pyGetD track_data "type" .null
    if !(isStr ty (pch "track")) then return (none, w)
    else do
      let (t, w₁) ← spotifyProcessBody fetch w track_item track_data track_index
      return (some t, w₁)

/-- The normalized track record built by
`AppleMusicPlaylistIndexer.process_track` (lines 128-145). -/
structure AmTrackInfo where
  index : Nat
  id : Json
  type : Json
  name : Json
  artist_name : Json
  album_name : Json
  duration_ms : Json
  release_date : Json
  genre_names : Json
  track_number : Json
  disc_number : Json
  isrc : Json
  content_rating : Json
  preview_url : Json
  artwork_url : Json
  artwork_local_path : Option PyStr

/-- `AppleMusicPlaylistIndexer.process_track` (lines 117-165).  Every item
produces a record (there is no type filter); the repeated
`track_data.get('attributes', {})` chains of the source are evaluated once
(the call is pure, so the value is the same at each use). -/
def appleProcessTrack (fetch : Json → Option PyStr) (w : World)
    (track_data : Json) (track_index : Nat) :
    Except PyErr (AmTrackInfo × World) := do
  let attributes ← pyGetD track_data "attributes" (.obj [])
  let id ← pyGetD track_data "id" .null
  let ty ← pyGetD track_data "type" .null
  let name ← pyGetD attributes "name" .null
  let artist_name ← pyGetD attributes "artistName" .null
  let album_name ← pyGetD attributes "albumName" .null
  let duration_ms ← pyGetD attributes "durationInMillis" .null
  let release_date ← pyGetD attributes "releaseDate" .null
  let genre_names ← pyGetD attributes "genreNames" (.arr [])
  let track_number ← pyGetD attributes "trackNumber" .null
  let disc_number ← pyGetD attributes "discNumber" .null
  let isrc ← pyGetD attributes "isrc" .null
  let content_rating ← pyGetD attributes "contentRating" .null
  let previews ← pyGetD attributes "previews" (.arr [.obj []])
  let p0 ← pyIndex previews 0
  let preview_url ← pyGetD p0 "url" .null
  let base : AmTrackInfo :=
    { index := track_index, id := id, type := ty, name := name,
      artist_name := artist_name, album_name := album_name,
      duration_ms := duration_ms, release_date := release_date,
      genre_names := genre_names, track_number := track_number,
      disc_number := disc_number, isrc := isrc,
      content_rating := content_rating, preview_url := preview_url,
      artwork_url := .null, artwork_local_path := none }
  let artwork ← pyGetD attributes "artwork" .null
  if isTruthy artwork then do
    let artwork_url ← pyGetD artwork "url" .null
    if isTruthy artwork_url then do
      let safe := appleSafeFilename track_index (pyStr artist_name) (pyStr name)
      let dl ← appleDownloadArtwork fetch w artwork_url safe
      match dl.1 with
      | some lp =>
        return ({ base with artwork_url := artwork_url, artwork_local_path := some lp }, dl.2)
      | none => return ({ base with artwork_url := artwork_url }, dl.2)
    else return (base, w)
  else return (base, w)

/-- The per-track loop of `SpotifyPlaylistIndexer.index_playlist`
(lines 403-412): `enumerate(tracks_data, 1)`, the logging access
`track_item.get('track', {}).get('name', 'Unknown')` (which can itself
raise), `process_track`, and `if track_info:` filtering of dropped items. -/
def spotifyProcessAll (fetch : Json → Option PyStr) :
    List Json → Nat → World → Except PyErr (List SpTrackInfo × World)
  | [], _, w => .ok ([], w)
  | item :: rest, idx, w => do
    let td ← pyGetD item "track" (.obj [])
    let _ ← pyGetD td "name" (.str (pch "Unknown"))
    let (opt, w₁) ← spotifyProcessTrack fetch w item idx
    let (ts, w₂) ← spotifyProcessAll fetch rest (idx + 1) w₁
    match opt with
    | some t => .ok (t :: ts, w₂)
    | none => .ok (ts, w₂)

/-- The per-track loop of `AppleMusicPlaylistIndexer.index_playlist`
(lines 213-220): `enumerate(tracks_data, 1)`, the logging access
`track.get('attributes', {}).get('name')`, `process_track`, and an
unconditional append. -/
def appleProcessAll (fetch : Json → Option PyStr) :
    List Json → Nat → World → Except PyErr (List AmTrackInfo × World)
  | [], _, w => .ok ([], w)
  | item :: rest, idx, w => do
    let attrs ← pyGetD item "attributes" (.obj [])
    let _ ← pyGetD attrs "name" .null
    let (t, w₁) ← appleProcessTrack fetch w item idx
    let (ts, w₂) ← appleProcessAll fetch rest (idx + 1) w₁
    .ok (t :: ts, w₂)

/-- `SpotifyPlaylistIndexer.extract_playlist_id` (lines 86-107): if the
substring `'playlist/'` occurs in the URL, take the text after its last
occurrence and truncate at the first `'?'`; otherwise `None`. -/
def spotifyExtractPlaylistId (playlist_url : PyStr) : Option PyStr :=
  if pyIn (pch "playlist/") playlist_url then
    let pid := (pySplit (pch "playlist/") playlist_url).getLastD []
    some ((pySplit (pch "?") pid).headD [])
  else none

/-- `AppleMusicPlaylistIndexer.extract_playlist_id` (lines 46-59): if the
substring `'/playlist/'` occurs in the URL, take the text after its last
occurrence and then its last `'/'`-separated component; otherwise `None`. -/
def appleExtractPlaylistId (playlist_url : PyStr) : Option PyStr :=
  if pyIn (pch "/playlist/") playlist_url then
    some ((pySplit (pch "/")
      ((pySplit (pch "/playlist/") playlist_url).getLastD [])).getLastD [])
  else none

/-- `SpotifyPlaylistIndexer.get_playlist_tracks` (lines 129-171), driven by
`fuel` remaining loop iterations.  `api limit offset` is the network oracle
for `GET /playlists/{id}/tracks?limit=..&offset=..`; `none` models a request
exception or non-2xx status, on which the loop `break`s with whatever has
been accumulated so far.  A result of `.ok none` means the fuel ran out (a
modeling artifact, never reached with enough fuel). -/
def spotifyGetPlaylistTracksAux (api : Nat → Nat → Option Json) :
    Nat → Nat → List Json → Except PyErr (Option (List Json))
  | 0, _, _ => .ok none
  | fuel + 1, offset, acc =>
    match api 100 offset with
    | none => .ok (some acc)
    | some data => do
      let tracksJ ← pyGetD data "items" (.arr [])
      if !(isTruthy tracksJ) then .ok (some acc)
      else do
        let items ← pyIter tracksJ
        let acc' := acc ++ items
        let nxt ← pyGetD data "next" .null
        if nxt.isNull then .ok (some acc')
        else spotifyGetPlaylistTracksAux api fuel (offset + 100) acc'

/-- The whole pagination loop, started at offset 0 with an empty accumulator. -/
def spotifyGetPlaylistTracks (api : Nat → Nat → Option Json) (fuel : Nat) :
    Except PyErr (Option (List Json)) :=
  spotifyGetPlaylistTracksAux api fuel 0 []

/-- Column access `df[name]` on the DataFrame built from the processed track
records.  Every record dict defines every column, so on a non-empty list the
column exists and is the list of field values; `pd.DataFrame([])` has no
columns at all, so any column access raises `KeyError`. -/
def dfColumn {α : Type} (rows : List α) (f : α → Json) : Except PyErr (List Json) :=
  if rows.isEmpty then .error .keyError else .ok (rows.map f)

/-- Column access for the one column whose values are Python lists
(`all_artists`). -/
def dfColumnL {α : Type} (rows : List α) (f : α → List Json) :
    Except PyErr (List (List Json)) :=
  if rows.isEmpty then .error .keyError else .ok (rows.map f)

/-- `column.sum()` with pandas default `skipna`: nulls are skipped, integers
and booleans add up; any other value kind makes the reduction fail. -/
def pySumInt : List Json → Except PyErr Int
  | [] => .ok 0
  | v :: rest => do
    let s ← pySumInt rest
    match v with
    | .null => .ok s
    | .int n => .ok (n + s)
    | .bool b => .ok ((if b then 1 else 0) + s)
    | _ => .error .typeError

/-- `column.mean()`: nulls are skipped; the mean of no values is `NaN`
(modeled as `none`). -/
def pyMean (vals : List Json) : Except PyErr (Option PyF) := do
  let nums ← (vals.filter fun v => !v.isNull).mapM fun v =>
    match v with
    | Json.int n => Except.ok n
    | Json.bool b => Except.ok (if b then (1 : Int) else 0)
    | _ => Except.error PyErr.typeError
  if nums.isEmpty then pure none
  else pure (some ⟨nums.foldl (· + ·) 0, (nums.length : Int)⟩)

/-- `column.nunique()`: the number of distinct non-null values. -/
def pyNunique (vals : List Json) : Nat :=
  (pyDedup (vals.filter fun v => !v.isNull)).length

/-- The summary block of `SpotifyPlaylistIndexer.index_playlist`
(lines 440-467).  The `indexed_at` timestamp is not modeled. -/
structure SpSummary where
  total_tracks : Nat
  total_duration_ms : Int
  total_duration_hours : PyF
  unique_primary_artists : Nat
  unique_all_artists : Nat
  unique_albums : Nat
  average_popularity : Option PyF
  explicit_tracks : Int
  tracks_with_preview : Nat
  deriving DecidableEq

/-- Computing the Spotify summary aggregates, in source evaluation order:
`df['duration_ms'].sum()` first (line 444), then the distinct counts, the
`all_artists` flattening loop, and the remaining aggregates of the
`'summary'` dict literal (lines 458-468). -/
def spotifySummary (tracks : List SpTrackInfo) : Except PyErr SpSummary := do
  let durs ← dfColumn tracks (·.duration_ms)
  let total_duration ← pySumInt durs
  let arts ← dfColumn tracks (·.artist_name)
  let unique_artists := pyNunique arts
  let albs ← dfColumn tracks (·.album_name)
  let unique_albums := pyNunique albs
  let alls ← dfColumnL tracks (·.all_artists)
  let all_artist_names := alls.flatten
  let unique_all_artists := (pyDedup all_artist_names).length
  let pops ← dfColumn tracks (·.popularity)
  let average_popularity ← pyMean pops
  let exps ← dfColumn tracks (·.explicit)
  let explicit_tracks ← pySumInt exps
  let prevs ← dfColumn tracks (·.preview_url)
  let tracks_with_preview := (prevs.filter fun v => !v.isNull).length
  .ok { total_tracks := tracks.length,
        total_duration_ms := total_duration,
        total_duration_hours := PyF.div (PyF.ofInt total_duration) (PyF.ofInt (1000 * 60 * 60)),
        unique_primary_artists := unique_artists,
        unique_all_artists := unique_all_artists,
        unique_albums := unique_albums,
        average_popularity := average_popularity,
        explicit_tracks := explicit_tracks,
        tracks_with_preview := tracks_with_preview }

/-- The summary block of `AppleMusicPlaylistIndexer.index_playlist`
(lines 229-236).  The `indexed_at` timestamp is not modeled. -/
structure AmSummary where
  total_tracks : Nat
  total_duration_ms : Int
  unique_artists : Nat
  unique_albums : Nat
  genres : List Json

/-- The genre union
`list(set([genre for genres in df['genre_names'] for genre in genres if genres]))`:
each track's `genre_names` value is iterated (raising `TypeError` when it is
not iterable), kept when the value is truthy, flattened and deduplicated. -/
def appleGenres (col : List Json) : Except PyErr (List Json) := do
  let parts ← col.mapM fun g => do
    let elems ← pyIter g
    pure (if isTruthy g then elems else [])
  pure (pyDedup parts.flatten)

/-- Computing the Apple Music summary aggregates, in source evaluation order
(`df['duration_ms'].sum()` first). -/
def appleSummary (tracks : List AmTrackInfo) : Except PyErr AmSummary := do
  let durs ← dfColumn tracks (·.duration_ms)
  let total_duration ← pySumInt durs
  let arts ← dfColumn tracks (·.artist_name)
  let unique_artists := pyNunique arts
  let albs ← dfColumn tracks (·.album_name)
  let unique_albums := pyNunique albs
  let gcol ← dfColumn tracks (·.genre_names)
  let genres ← appleGenres gcol
  .ok { total_tracks := tracks.length,
        total_duration_ms := total_duration,
        unique_artists := unique_artists,
        unique_albums := unique_albums,
        genres := genres }

/-- The playlist metadata dict of `SpotifyPlaylistIndexer.index_playlist`
(lines 382-395). -/
structure SpPlaylistMetadata where
  id : Json
  name : Json
  description : Json
  owner : Json
  owner_id : Json
  public : Json
  collaborative : Json
  follower_count : Json
  track_count : Json
  url : PyStr
  spotify_url : Json
  snapshot_id : Json

/-- Building the Spotify playlist metadata from the fetched playlist JSON;
the repeated pure `playlist_data.get('owner', {})` chain is evaluated once. -/
def spotifyBuildMetadata (playlist_data : Json) (playlist_url : PyStr) :
    Except PyErr SpPlaylistMetadata := do
  let id ← pyGetD playlist_data "id" .null
  let name ← pyGetD playlist_data "name" .null
  let description ← pyGetD playlist_data "description" .null
  let owner_obj ← pyGetD playlist_data "owner" (.obj [])
  let owner ← pyGetD owner_obj "display_name" .null
  let owner_id ← pyGetD owner_obj "id" .null
  let public ← pyGetD playlist_data "public" .null
  let collaborative ← pyGetD playlist_data "collaborative" .null
  let followers ← pyGetD playlist_data "followers" (.obj [])
  let follower_count ← pyGetD followers "total" .null
  let tracks_obj ← pyGetD playlist_data "tracks" (.obj [])
  let track_count ← pyGetD tracks_obj "total" .null
  let eu ← pyGetD playlist_data "external_urls" (.obj [])
  let spotify_url ← pyGetD eu "spotify" .null
  let snapshot_id ← pyGetD playlist_data "snapshot_id" .null
  .ok { id := id, name := name, description := description, owner := owner,
        owner_id := owner_id, public := public, collaborative := collaborative,
        follower_count := follower_count, track_count := track_count,
        url := playlist_url, spotify_url := spotify_url,
        snapshot_id := snapshot_id }

/-- The persisted snapshot document `{playlist_metadata, tracks, summary}`. -/
structure SpSnapshot where
  playlist_metadata : SpPlaylistMetadata
  tracks : List SpTrackInfo
  summary : SpSummary

/-- Outcome of one `index_playlist` run: the returned value (`None` on the
abort paths), the snapshot file written to `playlist_data/` (`none` when no
file was written), and the final artwork world. -/
structure SpRunResult where
  ret : Option PyStr
  snapshot : Option SpSnapshot
  world : World

/-- Python truthiness of `playlist_id` (`None` or the empty string are
falsy). -/
def optStrTruthy : Option PyStr → Bool
  | none => false
  | some s => !s.isEmpty

/-- Python truthiness of the `get_playlist_details` result (`None` on request
failure, otherwise the parsed JSON). -/
def optJsonTruthy : Option Json → Bool
  | none => false
  | some j => isTruthy j

/-- `SpotifyPlaylistIndexer.index_playlist` (lines 355-489).  `detailsResp`
is the metadata-fetch oracle result (`none` = request failure), `api` the
track-page oracle, `fetch` the artwork oracle, `now` the timestamp string
used in the output filename.  The result is `.ok none` only when the
pagination fuel ran out (modeling artifact); an uncaught exception anywhere
propagates as `.error` (and no snapshot is written). -/
def spotifyIndexPlaylist (fetch : Json → Option PyStr) (api : Nat → Nat → Option Json)
    (detailsResp : Option Json) (fuel : Nat) (playlist_url now : PyStr) (w : World) :
    Except PyErr (Option SpRunResult) := do
  let pid? := spotifyExtractPlaylistId playlist_url
  if !(optStrTruthy pid?) then
    return some { ret := none, snapshot := none, world := w }
  let pid := pid?.getD []
  if !(optJsonTruthy detailsResp) then
    return some { ret := none, snapshot := none, world := w }
  let playlist_data := detailsResp.getD .null
  let metadata ← spotifyBuildMetadata playlist_data playlist_url
  let tracks? ← spotifyGetPlaylistTracks api fuel
  match tracks? with
  | none => return none
  | some tracks_data => do
    let (processed, w') ← spotifyProcessAll fetch tracks_data 1 w
    let summary ← spotifySummary processed
    let json_path := pch "playlist_data/spotify_playlist_" ++ pid ++ pch "_" ++ now ++ pch ".json"
    return some
      { ret := some json_path,
        snapshot := some { playlist_metadata := metadata, tracks := processed, summary := summary },
        world := w' }

/-- The drop test of `SpotifyPlaylistIndexer.process_track` as a pure
predicate: the item's `track` value (default `{}`) is truthy and is a dict
whose `type` equals `'track'`.  On inputs where processing raises this value
is immaterial (the characterization theorems assume a successful run). -/
def spotifyKeeps (item : Json) : Bool :=
  match item with
  | .obj kvs =>
    let td := jGetD kvs "track" (.obj [])
    isTruthy td &&
      (match td with
       | .obj tkvs => isStr (jGetD tkvs "type" .null) (pch "track")
       | _ => false)
  | _ => false

/-- A track-list page as returned by the Spotify API: an `items` array and a
`next` cursor. -/
def mkPage (its : List Json) (nxt : Json) : Json :=
  .obj [("items", .arr its), ("next", nxt)]

/-- Well-shapedness of a raw Spotify track item: whenever a nested field is
present it has the container type the source then accesses (the conditions
under which `process_track` performs no raising operation).  Absent fields
are always fine. -/
def spWellShaped (item : Json) : Bool :=
  match item with
  | .obj kvs =>
    (match jGet kvs "track" with
     | none => true
     | some td =>
       if !(isTruthy td) then true
       else
         match td with
         | .obj tkvs =>
           (match jGetD tkvs "type" .null with
            | .str t =>
              if t = pch "track" then
                (match jGet tkvs "artists" with
                 | none => true
                 | some (.arr l) => l.all fun a => match a with | .obj _ => true | _ => false
                 | some _ => false) &&
                (match jGet tkvs "album" with
                 | none => true
                 | some (.obj akvs) =>
                   (match jGet akvs "images" with
                    | none => true
                    | some (.arr []) => true
                    | some (.arr (x :: _)) => (match x with | .obj _ => true | _ => false)
                    | some j => !(isTruthy j))
                 | some _ => false) &&
                (match jGet tkvs "external_urls" with
                 | none => true
                 | some (.obj _) => true
                 | some _ => false) &&
                (match jGet kvs "added_by" with
                 | none => true
                 | some (.obj _) => true
                 | some _ => false)
              else true
            | _ => true)
         | _ => false)
  | _ => false

/-- Well-shapedness of a raw Apple Music track item: `attributes`, when
present, is a dict; a present `previews` list is non-empty with a dict first
element; a present truthy `artwork` is a dict whose `url`, when truthy, is a
string. -/
def amWellShaped (item : Json) : Bool :=
  match item with
  | .obj kvs =>
    (match jGet kvs "attributes" with
     | none => true
     | some (.obj akvs) =>
       (match jGet akvs "previews" with
        | none => true
        | some (.arr (x :: _)) => (match x with | .obj _ => true | _ => false)
        | some _ => false) &&
       (match jGet akvs "artwork" with
        | none => true
        | some (.obj artkvs) =>
          (match jGet artkvs "url" with
           | none => true
           | some (.str _) => true
           | some j => !(isTruthy j))
        | some j => !(isTruthy j))
     | some _ => false)
  | _ => false

/-- An artwork oracle on which every fetch fails. -/
def fetchNone : Json → Option PyStr := fun _ => none

/-- An artwork oracle on which every fetch succeeds with fixed bytes. -/
def fetchBytes : Json → Option PyStr := fun _ => some (pch "imagebytes")

/-- A minimal well-shaped playlist-metadata response. -/
def c1Meta : Json := .obj [("id", .str (pch "PID")), ("name", .str (pch "My Playlist"))]

/-- A minimal well-shaped keepable Spotify track item. -/
def c1Item : Json :=
  .obj [("track", .obj [("type", .str (pch "track")), ("name", .str (pch "Song A"))])]

/-- A track-page oracle whose first page holds one valid track and reports a
further page, and whose second page request fails with a network error. -/
def c1Api : Nat → Nat → Option Json := fun _ offset =>
  if offset == 0 then some (mkPage [c1Item] (.str (pch "https://api.spotify.com/page2")))
  else none

/-- The playlist URL of the concrete runs. -/
def c1Url : PyStr := pch "https://open.spotify.com/playlist/PID"

/-- The timestamp string of the concrete runs. -/
def c1Now : PyStr := pch "20260101_120000"

/-- A two-page track-list oracle: page at offset 0 has one item and a non-null
cursor, page at offset 100 has one item and a null cursor. -/
def c7Api : Nat → Nat → Option Json := fun _ offset =>
  if offset == 0 then some (mkPage [.int 0] (.str (pch "cursor")))
  else if offset == 100 then some (mkPage [.int 1] .null)
  else none

/-- The page items of `c7Api`, by page number. -/
def c7Items : Nat → List Json := fun i => [.int i]

/-- The page cursors of `c7Api`, by page number. -/
def c7Nexts : Nat → Json := fun i => if i == 0 then .str (pch "cursor") else .null

/-- A Spotify track item with no `track` key: the default `{}` is falsy, so
the item is dropped without error. -/
def dropItem : Json := .obj []

/-- A second well-shaped keepable Spotify track item. -/
def keepItem2 : Json :=
  .obj [("track", .obj [("type", .str (pch "track")), ("name", .str (pch "Song B"))])]

/-- A minimal well-shaped Apple Music track item. -/
def amItem : Json := .obj [("attributes", .obj [("name", .str (pch "Song C"))])]

/-- The normalized record produced for a minimal keepable Spotify item whose
track object holds only `type` and `name`: every other field takes its
default (`Unknown Artist`, `Unknown Album`, nulls, no artwork). -/
def spSongRec (i : Nat) (nm : String) : SpTrackInfo :=
  ⟨i, .null, .str (pch nm), .str (pch "Unknown Artist"), [],
    .str (pch "Unknown Album"), .null, .null, .bool false, .int 0,
    .null, .null, .null, .null, .null, .null, .obj [], .null, .null,
    .null, .null, .null, none⟩

/-- The normalized record produced for `amItem`: only `name` is present, all
other fields degrade to their defaults. -/
def amSongRec : AmTrackInfo :=
  ⟨1, .null, .null, .str (pch "Song C"), .null, .null, .null, .null,
    .arr [], .null, .null, .null, .null, .null, .null, none⟩

/-- Whether a fallible computation succeeded. -/
def isExceptOk {ε α : Type} : Except ε α → Bool
  | .ok _ => true
  | .error _ => false

/-- The artist name extracted from one (well-shaped) entry of the `artists`
list. -/
def spArtistName (a : Json) : Json :=
  match a with
  | .obj kvs => jGetD kvs "name" (.str [])
  | _ => .null

/-- `ok` bound into a continuation reduces. -/
@[simp] theorem exceptOkBind {ε α β : Type} (a : α) (f : α → Except ε β) :
    (Except.ok a : Except ε α) >>= f = f a := rfl

/-- `error` bound into a continuation reduces. -/
@[simp] theorem exceptErrorBind {ε α β : Type} (e : ε) (f : α → Except ε β) :
    (Except.error e : Except ε α) >>= f = .error e := rfl

/-- `pure` on `Except` is `ok`. -/
@[simp] theorem exceptPure {ε α : Type} (a : α) :
    (pure a : Except ε α) = .ok a := rfl

/-- A bind yields `ok` exactly when both of its stages do. -/
theorem bindOkIff {ε α β : Type} (m : Except ε α) (g : α → Except ε β) (r : β) :
    m >>= g = .ok r ↔ ∃ v, m = .ok v ∧ g v = .ok r := by
  cases m with
  | error e => simp
  | ok v => simp

/-- `pyGetD` on an object is the pure lookup. -/
@[simp] theorem pyGetD_obj (kvs : List (String × Json)) (k : String) (d : Json) :
    pyGetD (.obj kvs) k d = .ok (jGetD kvs k d) := rfl

/-- Characters surviving `collapseRuns` are underscores or non-run characters
of the input. -/
theorem mem_collapseRuns (c : Char) :
    ∀ (s : PyStr) (b : Bool), c ∈ collapseRuns b s →
      c = '_' ∨ (dashSpaceChar c = false ∧ c ∈ s) := by
  intro s
  induction s with
  | nil => intro b h; simp [collapseRuns] at h
  | cons x t ih =>
    intro b h
    simp only [collapseRuns] at h
    by_cases hx : dashSpaceChar x
    · simp only [hx, if_true] at h
      cases b with
      | true =>
        rcases ih true h with h1 | h2
        · exact Or.inl h1
        · exact Or.inr ⟨h2.1, List.mem_cons_of_mem _ h2.2⟩
      | false =>
        rcases List.mem_cons.mp h with h1 | h1
        · exact Or.inl h1
        · rcases ih true h1 with h2 | h2
          · exact Or.inl h2
          · exact Or.inr ⟨h2.1, List.mem_cons_of_mem _ h2.2⟩
    · simp only [hx, if_false] at h
      rcases List.mem_cons.mp h with h1 | h1
      · subst h1
        exact Or.inr ⟨by simpa using hx, List.mem_cons_self _ _⟩
      · rcases ih false h1 with h2 | h2
        · exact Or.inl h2
        · exact Or.inr ⟨h2.1, List.mem_cons_of_mem _ h2.2⟩

/-- C3: for every track index, artist and title, each platform's sanitized
artwork filename is at most 104 characters long, ends in `.jpg`, and its stem
(at most 100 characters) contains only alphanumeric, space, hyphen or
underscore characters. -/
theorem sanitized_filenames_safe (i : Nat) (artist name : PyStr) :
    ((spotifySafeFilename i artist name).length ≤ 104 ∧
      ∃ stem, spotifySafeFilename i artist name = stem ++ pch ".jpg" ∧ stem.length ≤ 100 ∧
        ∀ c ∈ stem, (c.isAlphanum ∨ c = ' ' ∨ c = '-' ∨ c = '_')) ∧
    ((appleSafeFilename i artist name).length ≤ 104 ∧
      ∃ stem, appleSafeFilename i artist name = stem ++ pch ".jpg" ∧ stem.length ≤ 100 ∧
        ∀ c ∈ stem, (c.isAlphanum ∨ c = ' ' ∨ c = '-' ∨ c = '_')) := by
  have hjpg : (pch ".jpg").length = 4 := rfl
  constructor
  · set safe0 := zfill3 i ++ '_' :: artist ++ '_' :: name with hsafe0
    set safe1 := safe0.filter (fun c => wordChar c || c.isWhitespace || c == '-') with hsafe1
    set stem := (collapseRuns false safe1).take 100 with hstem
    have hlen : stem.length ≤ 100 := List.length_take_le 100 (collapseRuns false safe1)
    have hchars : ∀ c ∈ stem, (c.isAlphanum ∨ c = ' ' ∨ c = '-' ∨ c = '_') := by
      intro c hc
      have hc' : c ∈ collapseRuns false safe1 := List.take_subset _ _ hc
      rcases mem_collapseRuns c safe1 false hc' with h | ⟨hds, hmem⟩
      · exact Or.inr (Or.inr (Or.inr h))
      · have hkeep := (List.mem_filter.mp hmem).2
        simp only [dashSpaceChar, Bool.or_eq_false_iff] at hds
        simp only [wordChar, Bool.or_eq_true, beq_iff_eq] at hkeep
        rcases hkeep with ((hw | hu) | hws) | hd
        · exact Or.inl hw
        · exact Or.inr (Or.inr (Or.inr hu))
        · exact absurd hws (by simp [hds.1])
        · exact absurd hd (by simpa using hds.2)
    have heq : spotifySafeFilename i artist name = stem ++ pch ".jpg" := rfl
    constructor
    · rw [heq, List.length_append, hjpg]; omega
    · exact ⟨stem, heq, hlen, hchars⟩
  · set safe0 := zfill3 i ++ '_' :: artist ++ '_' :: name with hsafe0
    set safe1 := safe0.filter (fun c => c.isAlphanum || c == ' ' || c == '-' || c == '_') with hsafe1
    set safe2 := (safe1.reverse.dropWhile Char.isWhitespace).reverse with hsafe2
    set stem := (safe2.map fun c => if c == ' ' then '_' else c).take 100 with hstem
    have hlen : stem.length ≤ 100 :=
      List.length_take_le 100 (safe2.map fun c => if c == ' ' then '_' else c)
    have hchars : ∀ c ∈ stem, (c.isAlphanum ∨ c = ' ' ∨ c = '-' ∨ c = '_') := by
      intro c hc
      have hc' : c ∈ safe2.map fun c => if c == ' ' then '_' else c := List.take_subset _ _ hc
      rcases List.mem_map.mp hc' with ⟨c₀, hc₀, hceq⟩
      have hc₀' : c₀ ∈ safe1 := by
        have h1 : c₀ ∈ safe1.reverse.dropWhile Char.isWhitespace := by
          simpa [hsafe2, List.mem_reverse] using hc₀
        have h2 : c₀ ∈ safe1.reverse := (List.dropWhile_sublist _).subset h1
        simpa [List.mem_reverse] using h2
      have hkeep := (List.mem_filter.mp hc₀').2
      by_cases hsp : c₀ = ' '
      · subst hceq; simp [hsp]
      · have hceq' : c = c₀ := by
          subst hceq; simp [hsp]
        subst hceq'
        simp only [Bool.or_eq_true, beq_iff_eq] at hkeep
        rcases hkeep with ((ha | hb) | hcc) | hd
        · exact Or.inl ha
        · exact absurd hb hsp
        · exact Or.inr (Or.inr (Or.inl hcc))
        · exact Or.inr (Or.inr (Or.inr hd))
    have heq : appleSafeFilename i artist name = stem ++ pch ".jpg" := rfl
    constructor
    · rw [heq, List.length_append, hjpg]; omega
    · exact ⟨stem, heq, hlen, hchars⟩

/-- C5: on an empty normalized track list, the summary computation of both
platforms raises (`KeyError` on the first column access of the empty
DataFrame) instead of producing aggregates. -/
theorem summary_empty_track_list_raises :
    spotifySummary [] = .error .keyError ∧ appleSummary [] = .error .keyError :=
  ⟨rfl, rfl⟩

/-- C8 counterexample: with a URL whose fetch fails, two calls of the Spotify
artwork downloader with the same destination filename perform two network
fetches, and the second call returns no existing path. -/
theorem spotify_download_twice_two_fetches :
    (spotifyDownloadArtwork fetchNone
        (spotifyDownloadArtwork fetchNone World.empty
          (.str (pch "https://i.scdn.co/a.jpg")) (pch "001_a_b.jpg")).2
        (.str (pch "https://i.scdn.co/a.jpg")) (pch "001_a_b.jpg")).2.fetchLog.length = 2 ∧
    (spotifyDownloadArtwork fetchNone World.empty
        (.str (pch "https://i.scdn.co/a.jpg")) (pch "001_a_b.jpg")).1 = none ∧
    (spotifyDownloadArtwork fetchNone
        (spotifyDownloadArtwork fetchNone World.empty
          (.str (pch "https://i.scdn.co/a.jpg")) (pch "001_a_b.jpg")).2
        (.str (pch "https://i.scdn.co/a.jpg")) (pch "001_a_b.jpg")).1 = none :=
  ⟨rfl, rfl, rfl⟩

/-- C8 (amended): for a truthy artwork URL whose fetch succeeds and a
destination filename not yet present, the first call performs the one fetch
and writes the file, and the second call with the same filename observes the
existing file, performs no fetch and no write (the world is unchanged) and
returns the same existing path. -/
theorem spotify_download_idempotent (fetch : Json → Option PyStr) (w : World)
    (url : Json) (fn content : PyStr)
    (hurl : isTruthy url = true)
    (hfetch : fetch url = some content)
    (hfresh : w.files.contains (imagePath fn) = false) :
    (spotifyDownloadArtwork fetch w url fn).1 = some (imagePath fn) ∧
    (spotifyDownloadArtwork fetch w url fn).2.fetchLog = w.fetchLog ++ [url] ∧
    (spotifyDownloadArtwork fetch w url fn).2.writeLog = w.writeLog ++ [imagePath fn] ∧
    spotifyDownloadArtwork fetch (spotifyDownloadArtwork fetch w url fn).2 url fn
      = (some (imagePath fn), (spotifyDownloadArtwork fetch w url fn).2) := by
  have h1 : spotifyDownloadArtwork fetch w url fn
      = (some (imagePath fn),
        { files := imagePath fn :: w.files,
          fetchLog := w.fetchLog ++ [url],
          writeLog := w.writeLog ++ [imagePath fn] }) := by
    have hfresh' : imagePath fn ∉ w.files := by simpa using hfresh
    simp [spotifyDownloadArtwork, hurl, hfresh', hfetch]
  refine ⟨by rw [h1], by rw [h1], by rw [h1], ?_⟩
  rw [h1]
  have hc : (imagePath fn :: w.files).contains (imagePath fn) = true := by simp
  simp [spotifyDownloadArtwork, hurl, hc]

/-- C8 witness: the amended statement at a concrete URL, filename and world. -/
theorem spotify_download_idempotent_witness :
    (isTruthy (.str (pch "https://i.scdn.co/b.jpg")) = true ∧
     fetchBytes (.str (pch "https://i.scdn.co/b.jpg")) = some (pch "imagebytes") ∧
     World.empty.files.contains (imagePath (pch "002_c_d.jpg")) = false) ∧
    ((spotifyDownloadArtwork fetchBytes World.empty
        (.str (pch "https://i.scdn.co/b.jpg")) (pch "002_c_d.jpg")).1
        = some (imagePath (pch "002_c_d.jpg")) ∧
     (spotifyDownloadArtwork fetchBytes World.empty
        (.str (pch "https://i.scdn.co/b.jpg")) (pch "002_c_d.jpg")).2.fetchLog
        = World.empty.fetchLog ++ [.str (pch "https://i.scdn.co/b.jpg")] ∧
     (spotifyDownloadArtwork fetchBytes World.empty
        (.str (pch "https://i.scdn.co/b.jpg")) (pch "002_c_d.jpg")).2.writeLog
        = World.empty.writeLog ++ [imagePath (pch "002_c_d.jpg")] ∧
     spotifyDownloadArtwork fetchBytes
        (spotifyDownloadArtwork fetchBytes World.empty
          (.str (pch "https://i.scdn.co/b.jpg")) (pch "002_c_d.jpg")).2
        (.str (pch "https://i.scdn.co/b.jpg")) (pch "002_c_d.jpg")
        = (some (imagePath (pch "002_c_d.jpg")),
          (spotifyDownloadArtwork fetchBytes World.empty
            (.str (pch "https://i.scdn.co/b.jpg")) (pch "002_c_d.jpg")).2)) :=
  ⟨⟨rfl, rfl, rfl⟩,
    spotify_download_idempotent fetchBytes World.empty
      (.str (pch "https://i.scdn.co/b.jpg")) (pch "002_c_d.jpg") (pch "imagebytes")
      rfl rfl rfl⟩

/-- C9 counterexample: on a fetch failure the Apple Music downloader performs
the fetch (with the `'{w}x{h}'` placeholder replaced by `'1200x1200'`) but
writes nothing and returns `None`, even though a destination file exists —
so it does not always write the destination file. -/
theorem apple_download_failed_fetch_writes_nothing :
    appleDownloadArtwork fetchNone ⟨[imagePath (pch "001_c_d.jpg")], [], []⟩
        (.str (pch "https://is1-ssl.mzstatic.com/\x7bw\x7dx\x7bh\x7dbb.jpg"))
        (pch "001_c_d.jpg")
      = .ok (none, ⟨[imagePath (pch "001_c_d.jpg")],
          [.str (pch "https://is1-ssl.mzstatic.com/1200x1200bb.jpg")], []⟩) := rfl

/-- C9 (amended): for a string artwork URL containing the `'{w}x{h}'`
placeholder whose (substituted) fetch succeeds, the Apple Music downloader
always fetches the URL with the placeholder replaced by `'1200x1200'` and
writes the destination file — with no existence check, for any prior state of
the artwork directory. -/
theorem apple_download_always_fetches_and_overwrites (fetch : Json → Option PyStr)
    (w : World) (u fn content : PyStr)
    (hph : pyIn (pch "\x7bw\x7dx\x7bh\x7d") u = true)
    (hfetch : fetch (.str (pyReplace (pch "\x7bw\x7dx\x7bh\x7d") (pch "1200x1200") u))
      = some content) :
    ∃ w', appleDownloadArtwork fetch w (.str u) fn = .ok (some (imagePath fn), w') ∧
      w'.fetchLog = w.fetchLog
        ++ [.str (pyReplace (pch "\x7bw\x7dx\x7bh\x7d") (pch "1200x1200") u)] ∧
      w'.writeLog = w.writeLog ++ [imagePath fn] ∧
      (imagePath fn) ∈ w'.files := by
  have hu : u ≠ [] := by
    intro h
    subst h
    simp [pyIn, List.isEmpty, pch] at hph
  have htr : isTruthy (.str u) = true := by
    simp [isTruthy, List.isEmpty_iff, hu]
  have h1 : appleDownloadArtwork fetch w (.str u) fn
      = .ok (some (imagePath fn),
        { files := if w.files.contains (imagePath fn) then w.files
            else imagePath fn :: w.files,
          fetchLog := w.fetchLog
            ++ [.str (pyReplace (pch "\x7bw\x7dx\x7bh\x7d") (pch "1200x1200") u)],
          writeLog := w.writeLog ++ [imagePath fn] }) := by
    simp [appleDownloadArtwork, htr, hph, hfetch]
  refine ⟨_, h1, rfl, rfl, ?_⟩
  by_cases hmem : w.files.contains (imagePath fn)
  · simp only [hmem, if_true]
    simpa using hmem
  · simp only [hmem]
    simp

/-- C9 witness: the amended statement at a concrete placeholder URL, with the
destination file already present beforehand. -/
theorem apple_download_overwrites_witness :
    (pyIn (pch "\x7bw\x7dx\x7bh\x7d") (pch "https://m.example/\x7bw\x7dx\x7bh\x7d/c.jpg") = true ∧
     fetchBytes (.str (pyReplace (pch "\x7bw\x7dx\x7bh\x7d") (pch "1200x1200")
       (pch "https://m.example/\x7bw\x7dx\x7bh\x7d/c.jpg"))) = some (pch "imagebytes")) ∧
    (∃ w', appleDownloadArtwork fetchBytes
        (⟨[imagePath (pch "003_e_f.jpg")], [], []⟩ : World)
        (.str (pch "https://m.example/\x7bw\x7dx\x7bh\x7d/c.jpg")) (pch "003_e_f.jpg")
        = .ok (some (imagePath (pch "003_e_f.jpg")), w') ∧
      w'.fetchLog = (⟨[imagePath (pch "003_e_f.jpg")], [], []⟩ : World).fetchLog
        ++ [.str (pyReplace (pch "\x7bw\x7dx\x7bh\x7d") (pch "1200x1200")
          (pch "https://m.example/\x7bw\x7dx\x7bh\x7d/c.jpg"))] ∧
      w'.writeLog = (⟨[imagePath (pch "003_e_f.jpg")], [], []⟩ : World).writeLog
        ++ [imagePath (pch "003_e_f.jpg")] ∧
      (imagePath (pch "003_e_f.jpg")) ∈ w'.files) :=
  ⟨⟨rfl, rfl⟩,
    apple_download_always_fetches_and_overwrites fetchBytes
      ⟨[imagePath (pch "003_e_f.jpg")], [], []⟩
      (pch "https://m.example/\x7bw\x7dx\x7bh\x7d/c.jpg") (pch "003_e_f.jpg")
      (pch "imagebytes") rfl rfl⟩

/-- The boolean prefix test decides the prefix relation. -/
theorem isPrefixOf_eq_true {l₁ l₂ : PyStr} :
    List.isPrefixOf l₁ l₂ = true ↔ l₁ <+: l₂ :=
  List.isPrefixOf_iff_prefix

/-- `pyIn` decides substring containment. -/
theorem pyIn_iff (needle hay : PyStr) : pyIn needle hay = true ↔ needle <:+: hay := by
  induction hay with
  | nil => simp [pyIn, List.isEmpty_iff, List.infix_nil]
  | cons c t ih => simp [pyIn, List.infix_cons_iff, ih, isPrefixOf_eq_true]

/-- The split worker does not depend on the fuel, once the fuel covers the
string. -/
theorem pySplitAux_stable (sep : PyStr) (hsep : sep ≠ []) :
    ∀ (fuel₁ : Nat) (s : PyStr) (fuel₂ : Nat), s.length ≤ fuel₁ → s.length ≤ fuel₂ →
      pySplitAux sep fuel₁ s = pySplitAux sep fuel₂ s := by
  have hslen : 1 ≤ sep.length := by
    cases sep with
    | nil => exact absurd rfl hsep
    | cons c t => simp
  intro fuel₁
  induction fuel₁ with
  | zero =>
    intro s fuel₂ h1 h2
    have hs : s = [] := List.eq_nil_of_length_eq_zero (Nat.le_zero.mp h1)
    subst hs
    cases fuel₂ <;> rfl
  | succ f ih =>
    intro s fuel₂ h1 h2
    cases s with
    | nil => cases fuel₂ <;> rfl
    | cons c rest =>
      cases fuel₂ with
      | zero => simp at h2
      | succ f₂ =>
        simp only [pySplitAux]
        by_cases hp : List.isPrefixOf sep (c :: rest)
        · simp only [hp, if_true]
          have hd : (List.drop sep.length (c :: rest)).length ≤ f := by
            simp only [List.length_drop, List.length_cons]
            simp only [List.length_cons] at h1
            omega
          have hd₂ : (List.drop sep.length (c :: rest)).length ≤ f₂ := by
            simp only [List.length_drop, List.length_cons]
            simp only [List.length_cons] at h2
            omega
          rw [ih _ f₂ hd hd₂]
        · simp only [hp, if_false]
          have hr : rest.length ≤ f := by
            simp only [List.length_cons] at h1; omega
          have hr₂ : rest.length ≤ f₂ := by
            simp only [List.length_cons] at h2; omega
          rw [ih rest f₂ hr hr₂]
          rfl

/-- Splitting a string that does not contain the separator yields the string
itself. -/
theorem pySplitAux_of_no_occurrence (sep : PyStr) :
    ∀ (fuel : Nat) (s : PyStr), ¬ sep <:+: s → pySplitAux sep fuel s = [s] := by
  intro fuel
  induction fuel with
  | zero => intro s h; cases s <;> rfl
  | succ f ih =>
    intro s h
    cases s with
    | nil => rfl
    | cons c rest =>
      have hp : List.isPrefixOf sep (c :: rest) = false := by
        rw [Bool.eq_false_iff]
        intro hc
        exact h (List.infix_cons_iff.mpr (Or.inl (isPrefixOf_eq_true.mp hc)))
      simp only [pySplitAux, hp]
      rw [ih rest fun hc => h (List.infix_cons hc)]
      rfl

/-- Splitting at an explicitly exhibited occurrence of the separator, when no
occurrence starts earlier: the text before the occurrence becomes the first
component and the remainder is split recursively. -/
theorem pySplitAux_append (sep : PyStr) (hsep : sep ≠ []) :
    ∀ (a : PyStr) (fuel : Nat) (b : PyStr),
      (a ++ sep ++ b).length ≤ fuel →
      ¬ sep <:+: (a ++ sep.dropLast) →
      pySplitAux sep fuel (a ++ sep ++ b) = a :: pySplitAux sep b.length b := by
  have hslen : 1 ≤ sep.length := by
    cases sep with
    | nil => exact absurd rfl hsep
    | cons c t => simp
  intro a
  induction a with
  | nil =>
    intro fuel b hfuel h
    obtain ⟨c, sep', hse⟩ : ∃ c sep', sep = c :: sep' := by
      cases sep with
      | nil => exact absurd rfl hsep
      | cons c t => exact ⟨c, t, rfl⟩
    cases fuel with
    | zero =>
      exfalso
      subst hse
      simp at hfuel
    | succ f =>
      have hp : List.isPrefixOf sep (sep ++ b) = true :=
        isPrefixOf_eq_true.mpr (List.prefix_append sep b)
      have hb : b.length ≤ f := by
        subst hse
        simp only [List.nil_append, List.length_append, List.length_cons] at hfuel
        omega
      subst hse
      simp only [List.nil_append] at *
      show pySplitAux (c :: sep') (f + 1) (c :: (sep' ++ b)) = _
      simp only [pySplitAux]
      rw [show (List.isPrefixOf (c :: sep') (c :: (sep' ++ b))) = true from hp]
      simp only [if_true]
      rw [show List.drop (c :: sep').length (c :: (sep' ++ b)) = b from
        List.drop_left (c :: sep') b]
      rw [pySplitAux_stable (c :: sep') hsep f b b.length hb le_rfl]
  | cons x a' ih =>
    intro fuel b hfuel h
    cases fuel with
    | zero =>
      exfalso
      simp at hfuel
    | succ f =>
      have hp : List.isPrefixOf sep ((x :: a') ++ sep ++ b) = false := by
        rw [Bool.eq_false_iff]
        intro hc
        apply h
        have hpre : sep <+: (x :: a') ++ sep ++ b := isPrefixOf_eq_true.mp hc
        have hlen : sep.length ≤ ((x :: a') ++ sep.dropLast).length := by
          simp only [List.length_append, List.length_cons, List.length_dropLast]
          omega
        have hdecomp : (x :: a') ++ sep ++ b
            = ((x :: a') ++ sep.dropLast) ++ ([sep.getLast hsep] ++ b) := by
          conv_lhs => rw [← List.dropLast_append_getLast hsep]
          simp [List.append_assoc]
        rw [hdecomp] at hpre
        have htk := List.prefix_iff_eq_take.mp hpre
        rw [List.take_append_of_le_length hlen] at htk
        have hpre' : sep <+: (x :: a') ++ sep.dropLast := by
          rw [List.prefix_iff_eq_take]
          exact htk
        obtain ⟨t, ht⟩ := hpre'
        exact ⟨[], t, by simpa using ht⟩
      have h' : ¬ sep <:+: (a' ++ sep.dropLast) := by
        intro hc
        exact h (List.infix_cons hc)
      have hf : (a' ++ sep ++ b).length ≤ f := by
        simp only [List.cons_append, List.length_cons] at hfuel
        simp only [List.length_append]
        simp only [List.length_append] at hfuel
        omega
      show pySplitAux sep (f + 1) (x :: (a' ++ sep ++ b)) = _
      simp only [pySplitAux]
      rw [show List.isPrefixOf sep (x :: (a' ++ sep ++ b)) = false from hp]
      rw [ih f b hf h']
      rfl

/-- `str.split` at the last occurrence of the separator, packaged for the
extraction functions. -/
theorem pySplit_append (sep : PyStr) (hsep : sep ≠ []) (a b : PyStr)
    (h : ¬ sep <:+: (a ++ sep.dropLast)) :
    pySplit sep (a ++ sep ++ b) = a :: pySplit sep b :=
  pySplitAux_append sep hsep a _ b le_rfl h

/-- `str.split` when the separator does not occur. -/
theorem pySplit_single (sep s : PyStr) (h : ¬ sep <:+: s) :
    pySplit sep s = [s] :=
  pySplitAux_of_no_occurrence sep _ s h

/-- C2 counterexample: `'xplaylist/abc'` lacks the path segment `/playlist/`
yet Spotify extraction returns `'abc'` (the guard matches the bare substring
`'playlist/'`), and Apple Music extraction keeps the query string instead of
stripping it. -/
theorem extract_playlist_id_counterexample :
    spotifyExtractPlaylistId (pch "xplaylist/abc") = some (pch "abc") ∧
    pyIn (pch "/playlist/") (pch "xplaylist/abc") = false ∧
    appleExtractPlaylistId (pch "https://music.apple.com/us/playlist/enc/pl.u-B?x=1")
      = some (pch "pl.u-B?x=1") :=
  ⟨rfl, rfl, rfl⟩

/-- C2 (amended): Spotify extraction returns null exactly when the bare
substring `'playlist/'` (not necessarily preceded by a slash) is absent, and
otherwise yields the text after its last occurrence truncated at the first
`'?'`; Apple Music extraction returns null exactly when `'/playlist/'` is
absent, and otherwise yields the last `'/'`-separated component of the text
after its last occurrence, with any query string retained. -/
theorem extract_playlist_id_characterization :
    (∀ url : PyStr, ¬ (pch "playlist/") <:+: url → spotifyExtractPlaylistId url = none) ∧
    (∀ url : PyStr, ¬ (pch "/playlist/") <:+: url → appleExtractPlaylistId url = none) ∧
    (∀ pre pid q : PyStr,
      ¬ (pch "playlist/") <:+: (pre ++ pch "playlist") →
      ¬ (pch "playlist/") <:+: (pid ++ '?' :: q) →
      '?' ∉ pid →
      spotifyExtractPlaylistId (pre ++ pch "playlist/" ++ (pid ++ '?' :: q)) = some pid) ∧
    (∀ pre nm pid : PyStr,
      ¬ (pch "/playlist/") <:+: (pre ++ pch "/playlist") →
      ¬ (pch "/playlist/") <:+: (nm ++ '/' :: pid) →
      '/' ∉ nm → '/' ∉ pid →
      appleExtractPlaylistId (pre ++ pch "/playlist/" ++ (nm ++ '/' :: pid)) = some pid) := by
  refine ⟨?_, ?_, ?_, ?_⟩
  · intro url h
    have hin : pyIn (pch "playlist/") url = false := by
      rw [Bool.eq_false_iff]
      intro hc
      exact h ((pyIn_iff _ _).mp hc)
    simp [spotifyExtractPlaylistId, hin]
  · intro url h
    have hin : pyIn (pch "/playlist/") url = false := by
      rw [Bool.eq_false_iff]
      intro hc
      exact h ((pyIn_iff _ _).mp hc)
    simp [appleExtractPlaylistId, hin]
  · intro pre pid q h1 h2 h3
    have hin : pyIn (pch "playlist/") (pre ++ pch "playlist/" ++ (pid ++ '?' :: q)) = true :=
      (pyIn_iff _ _).mpr ⟨pre, pid ++ '?' :: q, by simp⟩
    have h1' : ¬ (pch "playlist/") <:+: (pre ++ (pch "playlist/").dropLast) := by
      rw [show (pch "playlist/").dropLast = pch "playlist" from rfl]
      exact h1
    have hsplit : pySplit (pch "playlist/") (pre ++ pch "playlist/" ++ (pid ++ '?' :: q))
        = pre :: pySplit (pch "playlist/") (pid ++ '?' :: q) :=
      pySplit_append _ (by decide) _ _ h1'
    have hsingle : pySplit (pch "playlist/") (pid ++ '?' :: q) = [pid ++ '?' :: q] :=
      pySplit_single _ _ h2
    have hq : ¬ (pch "?") <:+: (pid ++ (pch "?").dropLast) := by
      rw [show (pch "?").dropLast = ([] : PyStr) from rfl, List.append_nil]
      intro hc
      exact h3 (hc.subset (by simp [pch]))
    have hqsplit : pySplit (pch "?") (pid ++ '?' :: q) = pid :: pySplit (pch "?") q := by
      have he : pid ++ '?' :: q = pid ++ pch "?" ++ q := by simp [pch]
      rw [he]
      exact pySplit_append _ (by decide) _ _ hq
    simp only [spotifyExtractPlaylistId]
    rw [List.append_assoc] at hin hsplit
    rw [List.append_assoc]
    rw [hin, hsplit, hsingle]
    rw [show (pre :: [pid ++ '?' :: q]).getLastD [] = pid ++ '?' :: q from rfl]
    rw [hqsplit]
    rfl
  · intro pre nm pid h1 h2 hn hp
    have hin : pyIn (pch "/playlist/") (pre ++ pch "/playlist/" ++ (nm ++ '/' :: pid)) = true :=
      (pyIn_iff _ _).mpr ⟨pre, nm ++ '/' :: pid, by simp⟩
    have h1' : ¬ (pch "/playlist/") <:+: (pre ++ (pch "/playlist/").dropLast) := by
      rw [show (pch "/playlist/").dropLast = pch "/playlist" from rfl]
      exact h1
    have hsplit : pySplit (pch "/playlist/") (pre ++ pch "/playlist/" ++ (nm ++ '/' :: pid))
        = pre :: pySplit (pch "/playlist/") (nm ++ '/' :: pid) :=
      pySplit_append _ (by decide) _ _ h1'
    have hsingle : pySplit (pch "/playlist/") (nm ++ '/' :: pid) = [nm ++ '/' :: pid] :=
      pySplit_single _ _ h2
    have hs : ¬ (pch "/") <:+: (nm ++ (pch "/").dropLast) := by
      rw [show (pch "/").dropLast = ([] : PyStr) from rfl, List.append_nil]
      intro hc
      exact hn (hc.subset (by simp [pch]))
    have hssplit : pySplit (pch "/") (nm ++ '/' :: pid) = nm :: pySplit (pch "/") pid := by
      have he : nm ++ '/' :: pid = nm ++ pch "/" ++ pid := by simp [pch]
      rw [he]
      exact pySplit_append _ (by decide) _ _ hs
    have hpsingle : pySplit (pch "/") pid = [pid] := by
      apply pySplit_single
      intro hc
      exact hp (hc.subset (by simp [pch]))
    simp only [appleExtractPlaylistId]
    rw [List.append_assoc] at hin hsplit
    rw [List.append_assoc]
    rw [hin, hsplit, hsingle]
    rw [show (pre :: [nm ++ '/' :: pid]).getLastD [] = nm ++ '/' :: pid from rfl]
    rw [hssplit, hpsingle]
    rfl

/-- C2 witness: the characterization applied at concrete URLs of both
platforms. -/
theorem extract_playlist_id_witness :
    (¬ (pch "playlist/") <:+: (pch "spotify:track:123") ∧
      spotifyExtractPlaylistId (pch "spotify:track:123") = none) ∧
    (¬ (pch "playlist/") <:+: (pch "https://open.spotify.com/" ++ pch "playlist") ∧
      ¬ (pch "playlist/") <:+: (pch "37i9abc" ++ '?' :: pch "si=xyz") ∧
      '?' ∉ pch "37i9abc" ∧
      spotifyExtractPlaylistId
        (pch "https://open.spotify.com/" ++ pch "playlist/" ++ (pch "37i9abc" ++ '?' :: pch "si=xyz"))
        = some (pch "37i9abc")) ∧
    (¬ (pch "/playlist/") <:+: (pch "https://music.apple.com/us" ++ pch "/playlist") ∧
      ¬ (pch "/playlist/") <:+: (pch "enc" ++ '/' :: pch "pl.u-B6") ∧
      '/' ∉ pch "enc" ∧ '/' ∉ pch "pl.u-B6" ∧
      appleExtractPlaylistId
        (pch "https://music.apple.com/us" ++ pch "/playlist/" ++ (pch "enc" ++ '/' :: pch "pl.u-B6"))
        = some (pch "pl.u-B6")) :=
  ⟨⟨by decide, extract_playlist_id_characterization.1 _ (by decide)⟩,
   ⟨by decide, by decide, by decide,
    extract_playlist_id_characterization.2.2.1 _ _ _ (by decide) (by decide) (by decide)⟩,
   ⟨by decide, by decide, by decide, by decide,
    extract_playlist_id_characterization.2.2.2 _ _ _ (by decide) (by decide) (by decide) (by decide)⟩⟩

/-- Reading the `items` field of a page. -/
@[simp] theorem pyGetD_mkPage_items (its : List Json) (nxt d : Json) :
    pyGetD (mkPage its nxt) "items" d = .ok (.arr its) := rfl

/-- Reading the `next` field of a page. -/
@[simp] theorem pyGetD_mkPage_next (its : List Json) (nxt d : Json) :
    pyGetD (mkPage its nxt) "next" d = .ok nxt := rfl

/-- The pagination loop, at any page boundary: with pages `k, …, n-1` still to
fetch (each non-empty, all but the last with a non-null cursor, the last with
a null cursor) and enough fuel, the loop returns the accumulator followed by
the concatenation of the remaining pages, in order. -/
theorem spotifyGetPlaylistTracksAux_pages (api : Nat → Nat → Option Json)
    (n : Nat) (items : Nat → List Json) (nexts : Nat → Json)
    (hapi : ∀ i, i < n → api 100 (100 * i) = some (mkPage (items i) (nexts i)))
    (hne : ∀ i, i < n → items i ≠ [])
    (hnx : ∀ i, i + 1 < n → (nexts i).isNull = false)
    (hlast : (nexts (n - 1)).isNull = true) :
    ∀ (fuel k : Nat) (acc : List Json), k < n → n - k ≤ fuel →
      spotifyGetPlaylistTracksAux api fuel (100 * k) acc
        = .ok (some (acc ++ ((List.range' k (n - k)).map items).flatten)) := by
  intro fuel
  induction fuel with
  | zero => intro k acc hk hf; omega
  | succ f ih =>
    intro k acc hk hf
    simp only [spotifyGetPlaylistTracksAux]
    rw [hapi k hk]
    have hit : isTruthy (.arr (items k)) = true := by
      simp [isTruthy, List.isEmpty_iff, hne k hk]
    simp only [pyGetD_mkPage_items, exceptOkBind, hit, Bool.not_true, Bool.false_eq_true,
      if_false, pyIter, pyGetD_mkPage_next]
    by_cases hk1 : k + 1 = n
    · have hnul : (nexts k).isNull = true := by
        rw [show k = n - 1 by omega]
        exact hlast
      rw [hnul]
      have hr : n - k = 1 := by omega
      simp [hr, List.range'_one]
    · have hlt : k + 1 < n := by omega
      rw [hnx k hlt]
      rw [show 100 * k + 100 = 100 * (k + 1) by ring]
      rw [ih (k + 1) (acc ++ items k) hlt (by omega)]
      rw [show n - k = (n - (k + 1)) + 1 by omega, List.range'_succ]
      simp [List.append_assoc]

/-- C7: when the API serves `n ≥ 1` pages at offsets `0, 100, …` (each paged
request with limit 100), every page non-empty, all but the last reporting a
non-null `next` cursor and the last a null one, the Spotify track lister
returns exactly the in-order concatenation of all pages. -/
theorem spotify_pagination_concatenates (api : Nat → Nat → Option Json)
    (n fuel : Nat) (items : Nat → List Json) (nexts : Nat → Json)
    (hn : 0 < n)
    (hapi : ∀ i, i < n → api 100 (100 * i) = some (mkPage (items i) (nexts i)))
    (hne : ∀ i, i < n → items i ≠ [])
    (hnx : ∀ i, i + 1 < n → (nexts i).isNull = false)
    (hlast : (nexts (n - 1)).isNull = true)
    (hfuel : n ≤ fuel) :
    spotifyGetPlaylistTracks api fuel = .ok (some (((List.range' 0 n).map items).flatten)) := by
  have h := spotifyGetPlaylistTracksAux_pages api n items nexts hapi hne hnx hlast
    fuel 0 [] hn (by omega)
  simpa using h

/-- C7 witness: the pagination theorem at a concrete two-page API. -/
theorem spotify_pagination_witness :
    (0 < 2 ∧
     (∀ i, i < 2 → c7Api 100 (100 * i) = some (mkPage (c7Items i) (c7Nexts i))) ∧
     (∀ i, i < 2 → c7Items i ≠ []) ∧
     (∀ i, i + 1 < 2 → (c7Nexts i).isNull = false) ∧
     (c7Nexts (2 - 1)).isNull = true ∧ 2 ≤ 2) ∧
    spotifyGetPlaylistTracks c7Api 2 = .ok (some (((List.range' 0 2).map c7Items).flatten)) := by
  have hapi : ∀ i, i < 2 → c7Api 100 (100 * i) = some (mkPage (c7Items i) (c7Nexts i)) := by
    intro i hi
    match i with
    | 0 => rfl
    | 1 => rfl
    | k + 2 => exact absurd hi (by omega)
  have hne : ∀ i, i < 2 → c7Items i ≠ [] := by
    intro i hi
    exact List.cons_ne_nil _ _
  have hnx : ∀ i, i + 1 < 2 → (c7Nexts i).isNull = false := by
    intro i hi
    match i with
    | 0 => rfl
    | k + 1 => exact absurd hi (by omega)
  exact ⟨⟨by decide, hapi, hne, hnx, rfl, by decide⟩,
    spotify_pagination_concatenates c7Api 2 2 c7Items c7Nexts (by decide)
      hapi hne hnx rfl (by decide)⟩

/-- Every record produced by the Spotify post-guard body carries the supplied
1-based index. -/
theorem spotifyProcessBody_index (fetch : Json → Option PyStr) (w : World)
    (ti td : Json) (idx : Nat) (t : SpTrackInfo) (w₂ : World)
    (h : spotifyProcessBody fetch w ti td idx = .ok (t, w₂)) : t.index = idx := by
  simp only [spotifyProcessBody, bindOkIff, exceptPure] at h
  obtain ⟨artistsJ, -, h⟩ := h
  obtain ⟨artistsL, -, h⟩ := h
  obtain ⟨names, -, h⟩ := h
  obtain ⟨album, -, h⟩ := h
  obtain ⟨albumName, -, h⟩ := h
  obtain ⟨images, -, h⟩ := h
  obtain ⟨aurl, -, h⟩ := h
  obtain ⟨idv, -, h⟩ := h
  obtain ⟨namev, -, h⟩ := h
  obtain ⟨albumId, -, h⟩ := h
  obtain ⟨dur, -, h⟩ := h
  obtain ⟨expl, -, h⟩ := h
  obtain ⟨pop, -, h⟩ := h
  obtain ⟨tn, -, h⟩ := h
  obtain ⟨dn, -, h⟩ := h
  obtain ⟨rd, -, h⟩ := h
  obtain ⟨rdp, -, h⟩ := h
  obtain ⟨aty, -, h⟩ := h
  obtain ⟨tt, -, h⟩ := h
  obtain ⟨eu, -, h⟩ := h
  obtain ⟨pv, -, h⟩ := h
  obtain ⟨su, -, h⟩ := h
  obtain ⟨aa, -, h⟩ := h
  obtain ⟨abo, -, h⟩ := h
  obtain ⟨ab, -, h⟩ := h
  split at h
  · split at h
    · simp only [Except.ok.injEq, Prod.mk.injEq] at h
      obtain ⟨h1, -⟩ := h
      subst h1
      rfl
    · simp only [Except.ok.injEq, Prod.mk.injEq] at h
      obtain ⟨h1, -⟩ := h
      subst h1
      rfl
  · simp only [Except.ok.injEq, Prod.mk.injEq] at h
    obtain ⟨h1, -⟩ := h
    subst h1
    rfl

/-- A successful `process_track` call returns `none` exactly on items the
drop test rejects (leaving the world untouched), and otherwise a record
carrying the supplied 1-based index. -/
theorem spotifyProcessTrack_shape (fetch : Json → Option PyStr) (w : World)
    (item : Json) (idx : Nat) (opt : Option SpTrackInfo) (w₂ : World)
    (h : spotifyProcessTrack fetch w item idx = .ok (opt, w₂)) :
    (opt = none ∧ spotifyKeeps item = false ∧ w₂ = w) ∨
    (∃ t, opt = some t ∧ spotifyKeeps item = true ∧ t.index = idx) := by
  cases item with
  | obj kvs =>
    simp only [spotifyProcessTrack, pyGetD_obj, exceptOkBind] at h
    by_cases htd : isTruthy (jGetD kvs "track" (.obj []))
    · rw [htd] at h
      simp only [Bool.not_true] at h
      rw [if_neg (by simp)] at h
      cases htd2 : jGetD kvs "track" (.obj []) with
      | obj tkvs =>
        rw [htd2] at h
        simp only [pyGetD_obj, exceptOkBind] at h
        by_cases hty : isStr (jGetD tkvs "type" .null) (pch "track")
        · rw [hty] at h
          simp only [Bool.not_true] at h
          rw [if_neg (by simp)] at h
          rw [bindOkIff] at h
          obtain ⟨⟨t, w₁⟩, hb, hret⟩ := h
          simp only [exceptPure, Except.ok.injEq, Prod.mk.injEq] at hret
          right
          refine ⟨t, hret.1.symm, ?_, spotifyProcessBody_index fetch w _ _ idx t w₁ hb⟩
          simp [spotifyKeeps, htd2, hty]
          rw [htd2] at htd
          exact htd
        · rw [Bool.eq_false_iff.mpr hty] at h
          simp only [Bool.not_false] at h
          simp only [if_true] at h
          simp only [exceptPure, Except.ok.injEq, Prod.mk.injEq] at h
          left
          refine ⟨h.1.symm, ?_, h.2.symm⟩
          simp [spotifyKeeps, htd2, Bool.eq_false_iff.mpr hty]
      | null =>
        rw [htd2] at htd
        simp [isTruthy] at htd
      | str s =>
        rw [htd2] at h
        simp [pyGetD] at h
      | int n =>
        rw [htd2] at h
        simp [pyGetD] at h
      | bool b =>
        rw [htd2] at h
        simp [pyGetD] at h
      | arr xs =>
        rw [htd2] at h
        simp [pyGetD] at h
    · rw [Bool.eq_false_iff.mpr htd] at h
      simp only [Bool.not_false] at h
      simp only [if_true] at h
      simp only [exceptPure, Except.ok.injEq, Prod.mk.injEq] at h
      left
      refine ⟨h.1.symm, ?_, h.2.symm⟩
      simp [spotifyKeeps, Bool.eq_false_iff.mpr htd]
  | null => simp [spotifyProcessTrack, pyGetD] at h
  | str s => simp [spotifyProcessTrack, pyGetD] at h
  | int n => simp [spotifyProcessTrack, pyGetD] at h
  | bool b => simp [spotifyProcessTrack, pyGetD] at h
  | arr xs => simp [spotifyProcessTrack, pyGetD] at h

/-- Every record produced by Apple Music `process_track` carries the supplied
1-based index. -/
theorem appleProcessTrack_index (fetch : Json → Option PyStr) (w : World)
    (item : Json) (idx : Nat) (t : AmTrackInfo) (w₂ : World)
    (h : appleProcessTrack fetch w item idx = .ok (t, w₂)) : t.index = idx := by
  simp only [appleProcessTrack, bindOkIff, exceptPure] at h
  obtain ⟨attrs, -, h⟩ := h
  obtain ⟨idv, -, h⟩ := h
  obtain ⟨ty, -, h⟩ := h
  obtain ⟨nm, -, h⟩ := h
  obtain ⟨an, -, h⟩ := h
  obtain ⟨abn, -, h⟩ := h
  obtain ⟨dur, -, h⟩ := h
  obtain ⟨rd, -, h⟩ := h
  obtain ⟨gn, -, h⟩ := h
  obtain ⟨tn, -, h⟩ := h
  obtain ⟨dn, -, h⟩ := h
  obtain ⟨isr, -, h⟩ := h
  obtain ⟨cr, -, h⟩ := h
  obtain ⟨pv, -, h⟩ := h
  obtain ⟨p0, -, h⟩ := h
  obtain ⟨pu, -, h⟩ := h
  obtain ⟨art, -, h⟩ := h
  split at h
  · cases hurl : pyGetD art "url" Json.null with
    | error e =>
      rw [hurl] at h
      simp at h
    | ok aurl =>
      rw [hurl] at h
      simp only [exceptOkBind] at h
      split at h
      · cases hdl : appleDownloadArtwork fetch w aurl
            (appleSafeFilename idx (pyStr an) (pyStr nm)) with
        | error e =>
          rw [hdl] at h
          simp at h
        | ok dl =>
          rw [hdl] at h
          simp only [exceptOkBind] at h
          split at h
          · simp only [Except.ok.injEq, Prod.mk.injEq] at h
            obtain ⟨h1, -⟩ := h
            subst h1
            rfl
          · simp only [Except.ok.injEq, Prod.mk.injEq] at h
            obtain ⟨h1, -⟩ := h
            subst h1
            rfl
      · simp only [Except.ok.injEq, Prod.mk.injEq] at h
        obtain ⟨h1, -⟩ := h
        subst h1
        rfl
  · simp only [Except.ok.injEq, Prod.mk.injEq] at h
    obtain ⟨h1, -⟩ := h
    subst h1
    rfl

/-- The Spotify per-track loop aligns its output, in order, with exactly the
kept entries of the 1-based enumeration of the raw items: each output record's
`index` is the 1-based position of its source item, and an item is kept
exactly when the drop test accepts it. -/
theorem spotifyProcessAll_spec (fetch : Json → Option PyStr) :
    ∀ (items : List Json) (idx : Nat) (w : World) (ts : List SpTrackInfo) (w₂ : World),
      spotifyProcessAll fetch items idx w = .ok (ts, w₂) →
      List.Forall₂ (fun (t : SpTrackInfo) (p : Nat × Json) => t.index = p.1 ∧ spotifyKeeps p.2 = true)
        ts ((List.enumFrom idx items).filter fun p => spotifyKeeps p.2) := by
  intro items
  induction items with
  | nil =>
    intro idx w ts w₂ h
    simp only [spotifyProcessAll, Except.ok.injEq, Prod.mk.injEq] at h
    obtain ⟨h1, -⟩ := h
    subst h1
    simp [List.enumFrom]
  | cons item rest ih =>
    intro idx w ts w₂ h
    simp only [spotifyProcessAll, bindOkIff] at h
    obtain ⟨td, -, h⟩ := h
    obtain ⟨nm, -, h⟩ := h
    obtain ⟨⟨opt, w₁⟩, hp, h⟩ := h
    obtain ⟨⟨ts', w₁'⟩, hr, h⟩ := h
    rcases spotifyProcessTrack_shape fetch w item idx opt w₁ hp with
      ⟨hopt, hkeep, -⟩ | ⟨t, hopt, hkeep, hidx⟩
    · subst hopt
      simp only [Except.ok.injEq, Prod.mk.injEq] at h
      obtain ⟨h1, -⟩ := h
      subst h1
      simp only [List.enumFrom_cons, List.filter_cons, hkeep, Bool.false_eq_true, if_false]
      exact ih (idx + 1) w₁ ts' w₁' hr
    · subst hopt
      simp only [Except.ok.injEq, Prod.mk.injEq] at h
      obtain ⟨h1, -⟩ := h
      subst h1
      simp only [List.enumFrom_cons, List.filter_cons, hkeep, if_true]
      exact List.Forall₂.cons ⟨hidx, hkeep⟩ (ih (idx + 1) w₁ ts' w₁' hr)

/-- The Apple Music per-track loop keeps every item: the output indices are
exactly `idx, idx+1, …` across the whole input list. -/
theorem appleProcessAll_indices (fetch : Json → Option PyStr) :
    ∀ (items : List Json) (idx : Nat) (w : World) (ts : List AmTrackInfo) (w₂ : World),
      appleProcessAll fetch items idx w = .ok (ts, w₂) →
      ts.map (·.index) = List.range' idx items.length := by
  intro items
  induction items with
  | nil =>
    intro idx w ts w₂ h
    simp only [appleProcessAll, Except.ok.injEq, Prod.mk.injEq] at h
    obtain ⟨h1, -⟩ := h
    subst h1
    simp
  | cons item rest ih =>
    intro idx w ts w₂ h
    simp only [appleProcessAll, bindOkIff] at h
    obtain ⟨attrs, -, h⟩ := h
    obtain ⟨nm, -, h⟩ := h
    obtain ⟨⟨t, w₁⟩, hp, h⟩ := h
    obtain ⟨⟨ts', w₁'⟩, hr, h⟩ := h
    simp only [Except.ok.injEq, Prod.mk.injEq] at h
    obtain ⟨h1, -⟩ := h
    subst h1
    simp only [List.map_cons, List.length_cons, List.range'_succ]
    rw [appleProcessTrack_index fetch w item idx t w₁ hp, ih (idx + 1) w₁ ts' w₁' hr]

/-- Matched outputs and kept entries have equal index/position sequences. -/
theorem forall₂_index_map {ts : List SpTrackInfo} {qs : List (Nat × Json)}
    (h : List.Forall₂ (fun (t : SpTrackInfo) (p : Nat × Json) =>
      t.index = p.1 ∧ spotifyKeeps p.2 = true) ts qs) :
    ts.map (·.index) = qs.map (·.1) := by
  induction h with
  | nil => rfl
  | cons h₁ h₂ ih => simp [h₁.1, ih]

/-- The positions of a 1-based enumeration are strictly increasing. -/
theorem enumFrom_pairwise_fst (l : List Json) :
    ∀ n, (List.enumFrom n l).Pairwise (fun a b => a.1 < b.1) := by
  induction l with
  | nil => intro n; simp
  | cons x t ih =>
    intro n
    simp only [List.enumFrom_cons]
    refine List.Pairwise.cons ?_ (ih (n + 1))
    intro p hp
    obtain ⟨i, y⟩ := p
    have := (List.mem_enumFrom hp).1
    simpa using by omega

/-- C6: on any successful normalization run, the Spotify output aligns, in
order, with exactly the kept entries of the enumerated raw item sequence
(items whose embedded track object is a truthy dict of type `'track'`), and
the Apple Music loop keeps every item regardless of type. -/
theorem track_dropping_exact (fetch fetchA : Json → Option PyStr)
    (items itemsA : List Json) (w wA w₂ w₂A : World)
    (ts : List SpTrackInfo) (tsA : List AmTrackInfo)
    (hs : spotifyProcessAll fetch items 1 w = .ok (ts, w₂))
    (ha : appleProcessAll fetchA itemsA 1 wA = .ok (tsA, w₂A)) :
    List.Forall₂ (fun (t : SpTrackInfo) (p : Nat × Json) =>
      t.index = p.1 ∧ spotifyKeeps p.2 = true)
      ts ((List.enumFrom 1 items).filter fun p => spotifyKeeps p.2) ∧
    tsA.length = itemsA.length := by
  refine ⟨spotifyProcessAll_spec fetch items 1 w ts w₂ hs, ?_⟩
  have h := congrArg List.length (appleProcessAll_indices fetchA itemsA 1 wA tsA w₂A ha)
  simpa using h

/-- C6 witness: a three-item Spotify run (keep, drop, keep) and a one-item
Apple Music run, both evaluated concretely. -/
theorem track_dropping_exact_witness :
    (spotifyProcessAll fetchNone [dropItem, c1Item] 1 World.empty
        = .ok ([spSongRec 2 "Song A"], World.empty) ∧
     appleProcessAll fetchNone [amItem] 1 World.empty = .ok ([amSongRec], World.empty)) ∧
    (List.Forall₂ (fun (t : SpTrackInfo) (p : Nat × Json) =>
        t.index = p.1 ∧ spotifyKeeps p.2 = true)
      [spSongRec 2 "Song A"]
      ((List.enumFrom 1 [dropItem, c1Item]).filter fun p => spotifyKeeps p.2) ∧
     ([amSongRec] : List AmTrackInfo).length = ([amItem] : List Json).length) :=
  ⟨⟨rfl, rfl⟩,
    track_dropping_exact fetchNone fetchNone [dropItem, c1Item] [amItem]
      World.empty World.empty World.empty World.empty
      [spSongRec 2 "Song A"] [amSongRec] rfl rfl⟩

/-- C10: on any successful run, each Spotify output record's `index` equals
the 1-based position of its source item (so the indices strictly increase,
with gaps exactly at dropped items), and the Apple Music output indices are
exactly `1..N`. -/
theorem index_fields_match_positions (fetch fetchA : Json → Option PyStr)
    (items itemsA : List Json) (w wA w₂ w₂A : World)
    (ts : List SpTrackInfo) (tsA : List AmTrackInfo)
    (hs : spotifyProcessAll fetch items 1 w = .ok (ts, w₂))
    (ha : appleProcessAll fetchA itemsA 1 wA = .ok (tsA, w₂A)) :
    ts.map (·.index) = ((List.enumFrom 1 items).filter fun p => spotifyKeeps p.2).map (·.1) ∧
    List.Pairwise (· < ·) (ts.map (·.index)) ∧
    tsA.map (·.index) = List.range' 1 itemsA.length := by
  have hf := spotifyProcessAll_spec fetch items 1 w ts w₂ hs
  have hmap := forall₂_index_map hf
  refine ⟨hmap, ?_, appleProcessAll_indices fetchA itemsA 1 wA tsA w₂A ha⟩
  rw [hmap, List.pairwise_map]
  exact (enumFrom_pairwise_fst items 1).filter _

/-- C10 witness: a keep-drop-keep Spotify run whose output indices are `[1,3]`
and a one-item Apple Music run with indices `[1]`. -/
theorem index_fields_match_positions_witness :
    (spotifyProcessAll fetchNone [c1Item, dropItem, keepItem2] 1 World.empty
        = .ok ([spSongRec 1 "Song A", spSongRec 3 "Song B"], World.empty) ∧
     appleProcessAll fetchNone [amItem] 1 World.empty = .ok ([amSongRec], World.empty)) ∧
    (([spSongRec 1 "Song A", spSongRec 3 "Song B"].map (·.index))
        = ((List.enumFrom 1 [c1Item, dropItem, keepItem2]).filter
            fun p => spotifyKeeps p.2).map (·.1) ∧
     List.Pairwise (· < ·) ([spSongRec 1 "Song A", spSongRec 3 "Song B"].map (·.index)) ∧
     ([amSongRec] : List AmTrackInfo).map (·.index)
        = List.range' 1 ([amItem] : List Json).length) :=
  ⟨⟨rfl, rfl⟩,
    index_fields_match_positions fetchNone fetchNone [c1Item, dropItem, keepItem2] [amItem]
      World.empty World.empty World.empty World.empty
      [spSongRec 1 "Song A", spSongRec 3 "Song B"] [amSongRec] rfl rfl⟩

/-- Success of a fallible computation, as an existence statement. -/
theorem exceptOk_exists {ε α : Type} (x : Except ε α) :
    isExceptOk x = true ↔ ∃ r, x = .ok r := by
  cases x <;> simp [isExceptOk]

/-- `ok` results are successes. -/
@[simp] theorem isExceptOk_ok {ε α : Type} (a : α) :
    isExceptOk (Except.ok a : Except ε α) = true := rfl

/-- Mapping `artist.get('name', '')` over a list of dicts never raises. -/
theorem mapM_artist_names (l : List Json)
    (hall : (l.all fun a => match a with | .obj _ => true | _ => false) = true) :
    (l.mapM fun a => pyGetD a "name" (.str [])) = .ok (l.map spArtistName) := by
  induction l with
  | nil => rfl
  | cons a t ih =>
    simp only [List.all_cons, Bool.and_eq_true] at hall
    cases a with
    | obj kvs =>
      rw [List.mapM_cons]
      simp only [pyGetD_obj, exceptOkBind]
      rw [ih hall.2]
      simp [spArtistName]
    | null => simp at hall
    | str s => simp at hall
    | int n => simp at hall
    | bool b => simp at hall
    | arr xs => simp at hall

/-- The Spotify post-guard body succeeds on a well-shaped item (dict track
data with well-typed present nested fields). -/
theorem spotifyProcessBody_ok (fetch : Json → Option PyStr) (w : World)
    (kvs tkvs : List (String × Json)) (idx : Nat)
    (hart : (match jGet tkvs "artists" with
             | none => true
             | some (.arr l) => l.all fun a => match a with | .obj _ => true | _ => false
             | some _ => false) = true)
    (halb : (match jGet tkvs "album" with
             | none => true
             | some (.obj akvs) =>
               (match jGet akvs "images" with
                | none => true
                | some (.arr []) => true
                | some (.arr (x :: _)) => (match x with | .obj _ => true | _ => false)
                | some j => !(isTruthy j))
             | some _ => false) = true)
    (heu : (match jGet tkvs "external_urls" with
            | none => true | some (.obj _) => true | some _ => false) = true)
    (hab : (match jGet kvs "added_by" with
            | none => true | some (.obj _) => true | some _ => false) = true) :
    isExceptOk (spotifyProcessBody fetch w (.obj kvs) (.obj tkvs) idx) = true := by
  have hartists : ∃ l, pyIter (jGetD tkvs "artists" (.arr [])) = .ok l ∧
      (l.mapM fun a => pyGetD a "name" (.str [])) = .ok (l.map spArtistName) := by
    cases har : jGet tkvs "artists" with
    | none => exact ⟨[], by simp [jGetD, har, pyIter], rfl⟩
    | some aj =>
      rw [har] at hart
      cases aj with
      | arr l => exact ⟨l, by simp [jGetD, har, pyIter], mapM_artist_names l hart⟩
      | null => simp at hart
      | str s => simp at hart
      | int n => simp at hart
      | bool b => simp at hart
      | obj o => simp at hart
  obtain ⟨names, hiter, hmapm⟩ := hartists
  have halbum : ∃ akvs, jGetD tkvs "album" (.obj []) = .obj akvs ∧
      ∃ u, spotifyArtworkUrl (jGetD akvs "images" (.arr [])) = .ok u := by
    cases hal : jGet tkvs "album" with
    | none =>
      refine ⟨[], by simp [jGetD, hal], .null, ?_⟩
      simp [jGetD, jGet, spotifyArtworkUrl, isTruthy]
    | some av =>
      rw [hal] at halb
      cases av with
      | obj akvs =>
        refine ⟨akvs, by simp [jGetD, hal], ?_⟩
        have halb' : (match jGet akvs "images" with
            | none => true
            | some (.arr []) => true
            | some (.arr (x :: _)) => (match x with | .obj _ => true | _ => false)
            | some j => !(isTruthy j)) = true := halb
        cases him : jGet akvs "images" with
        | none => exact ⟨.null, by simp [jGetD, him, spotifyArtworkUrl, isTruthy]⟩
        | some iv =>
          rw [him] at halb'
          cases iv with
          | arr l =>
            cases l with
            | nil => exact ⟨.null, by simp [jGetD, him, spotifyArtworkUrl, isTruthy]⟩
            | cons x xs =>
              cases x with
              | obj xkvs =>
                refine ⟨jGetD xkvs "url" .null, ?_⟩
                simp [jGetD, him, spotifyArtworkUrl, isTruthy, pyIndex]
              | null => simp at halb'
              | str s => simp at halb'
              | int n => simp at halb'
              | bool b => simp at halb'
              | arr ys => simp at halb'
          | null => exact ⟨.null, by simp [jGetD, him, spotifyArtworkUrl, isTruthy]⟩
          | str s =>
            have hf : isTruthy (.str s) = false := by simpa using halb'
            exact ⟨.null, by simp [jGetD, him, spotifyArtworkUrl, hf]⟩
          | int n =>
            have hf : isTruthy (.int n) = false := by simpa using halb'
            exact ⟨.null, by simp [jGetD, him, spotifyArtworkUrl, hf]⟩
          | bool b =>
            have hf : isTruthy (.bool b) = false := by simpa using halb'
            exact ⟨.null, by simp [jGetD, him, spotifyArtworkUrl, hf]⟩
          | obj o =>
            have hf : isTruthy (.obj o) = false := by simpa using halb'
            exact ⟨.null, by simp [jGetD, him, spotifyArtworkUrl, hf]⟩
      | null => simp at halb
      | str s => simp at halb
      | int n => simp at halb
      | bool b => simp at halb
      | arr l => simp at halb
  obtain ⟨akvs, halbeq, u, hurl⟩ := halbum
  have heueq : ∃ ekvs, jGetD tkvs "external_urls" (.obj []) = .obj ekvs := by
    cases he : jGet tkvs "external_urls" with
    | none => exact ⟨[], by simp [jGetD, he]⟩
    | some ev =>
      rw [he] at heu
      cases ev with
      | obj e => exact ⟨e, by simp [jGetD, he]⟩
      | null => simp at heu
      | str s => simp at heu
      | int n => simp at heu
      | bool b => simp at heu
      | arr l => simp at heu
  obtain ⟨ekvs, heueq⟩ := heueq
  have habeq : ∃ bkvs, jGetD kvs "added_by" (.obj []) = .obj bkvs := by
    cases hb : jGet kvs "added_by" with
    | none => exact ⟨[], by simp [jGetD, hb]⟩
    | some bv =>
      rw [hb] at hab
      cases bv with
      | obj e => exact ⟨e, by simp [jGetD, hb]⟩
      | null => simp at hab
      | str s => simp at hab
      | int n => simp at hab
      | bool b => simp at hab
      | arr l => simp at hab
  obtain ⟨bkvs, habeq⟩ := habeq
  simp only [spotifyProcessBody, pyGetD_obj, exceptOkBind, hiter, hmapm, halbeq,
    hurl, heueq, habeq, exceptPure]
  split
  · split <;> rfl
  · rfl

/-- The Apple Music downloader never raises on a string URL (any request
failure is caught and yields `None`). -/
theorem appleDownloadArtwork_str_ok (fetch : Json → Option PyStr) (w : World)
    (u fn : PyStr) : isExceptOk (appleDownloadArtwork fetch w (.str u) fn) = true := by
  simp only [appleDownloadArtwork]
  split
  · rfl
  · split <;> rfl

/-- Apple Music `process_track` succeeds on any well-shaped item. -/
theorem appleProcessTrack_ok (fetch : Json → Option PyStr) (w : World)
    (kvs : List (String × Json)) (idx : Nat)
    (h : amWellShaped (.obj kvs) = true) :
    isExceptOk (appleProcessTrack fetch w (.obj kvs) idx) = true := by
  have h' : (match jGet kvs "attributes" with
     | none => true
     | some (.obj akvs) =>
       (match jGet akvs "previews" with
        | none => true
        | some (.arr (x :: _)) => (match x with | .obj _ => true | _ => false)
        | some _ => false) &&
       (match jGet akvs "artwork" with
        | none => true
        | some (.obj artkvs) =>
          (match jGet artkvs "url" with
           | none => true
           | some (.str _) => true
           | some j => !(isTruthy j))
        | some j => !(isTruthy j))
     | some _ => false) = true := h
  cases hat : jGet kvs "attributes" with
  | none =>
    have h1 : jGetD kvs "attributes" (.obj []) = .obj [] := by simp [jGetD, hat]
    simp only [appleProcessTrack, pyGetD_obj, exceptOkBind, h1]
    simp [jGetD, jGet, pyIndex, isTruthy]
  | some av =>
    rw [hat] at h'
    cases av with
    | obj akvs =>
      have hc := h'
      rw [Bool.and_eq_true] at hc
      obtain ⟨hcPrev, hcArt⟩ := hc
      have h1 : jGetD kvs "attributes" (.obj []) = .obj akvs := by simp [jGetD, hat]
      have hprev : ∃ pkvs, pyIndex (jGetD akvs "previews" (.arr [.obj []])) 0 = .ok (.obj pkvs) := by
        cases hp : jGet akvs "previews" with
        | none => exact ⟨[], by simp [jGetD, hp, pyIndex]⟩
        | some pv =>
          rw [hp] at hcPrev
          cases pv with
          | arr l =>
            cases l with
            | nil => simp at hcPrev
            | cons x xs =>
              cases x with
              | obj xkvs => exact ⟨xkvs, by simp [jGetD, hp, pyIndex]⟩
              | null => simp at hcPrev
              | str s => simp at hcPrev
              | int n => simp at hcPrev
              | bool b => simp at hcPrev
              | arr ys => simp at hcPrev
          | null => simp at hcPrev
          | str s => simp at hcPrev
          | int n => simp at hcPrev
          | bool b => simp at hcPrev
          | obj o => simp at hcPrev
      obtain ⟨pkvs, hprev⟩ := hprev
      simp only [appleProcessTrack, pyGetD_obj, exceptOkBind, h1, hprev, exceptPure]
      cases haw : jGet akvs "artwork" with
      | none => simp [jGetD, haw, isTruthy]
      | some awv =>
        rw [haw] at hcArt
        cases awv with
        | obj artkvs =>
          have hcArt' : (match jGet artkvs "url" with
              | none => true
              | some (.str _) => true
              | some j => !(isTruthy j)) = true := hcArt
          have h2 : jGetD akvs "artwork" .null = .obj artkvs := by simp [jGetD, haw]
          rw [h2]
          by_cases hne : artkvs.isEmpty
          · simp [isTruthy, hne]
          · have htr : isTruthy (.obj artkvs) = true := by simp [isTruthy, hne]
            simp only [htr, if_true, pyGetD_obj, exceptOkBind]
            cases hu : jGet artkvs "url" with
            | none => simp [jGetD, hu, isTruthy]
            | some uv =>
              rw [hu] at hcArt'
              cases uv with
              | str s =>
                have h3 : jGetD artkvs "url" .null = .str s := by simp [jGetD, hu]
                rw [h3]
                by_cases hs : s.isEmpty
                · simp [isTruthy, hs]
                · have hts : isTruthy (.str s) = true := by simp [isTruthy, hs]
                  simp only [hts, if_true]
                  obtain ⟨dl, hdl⟩ := (exceptOk_exists _).mp
                    (appleDownloadArtwork_str_ok fetch w s
                      (appleSafeFilename idx (pyStr (jGetD akvs "artistName" Json.null))
                        (pyStr (jGetD akvs "name" Json.null))))
                  rw [hdl]
                  simp only [exceptOkBind]
                  cases dl.1 <;> rfl
              | null => simp [jGetD, hu, isTruthy]
              | int n =>
                have hf : isTruthy (.int n) = false := by simpa using hcArt'
                simp [jGetD, hu, hf]
              | bool b =>
                have hf : isTruthy (.bool b) = false := by simpa using hcArt'
                simp [jGetD, hu, hf]
              | arr l =>
                have hf : isTruthy (.arr l) = false := by simpa using hcArt'
                simp [jGetD, hu, hf]
              | obj o =>
                have hf : isTruthy (.obj o) = false := by simpa using hcArt'
                simp [jGetD, hu, hf]
        | null => simp [jGetD, haw, isTruthy]
        | str s =>
          have hf : isTruthy (.str s) = false := by simpa using hcArt
          simp [jGetD, haw, hf]
        | int n =>
          have hf : isTruthy (.int n) = false := by simpa using hcArt
          simp [jGetD, haw, hf]
        | bool b =>
          have hf : isTruthy (.bool b) = false := by simpa using hcArt
          simp [jGetD, haw, hf]
        | arr l =>
          have hf : isTruthy (.arr l) = false := by simpa using hcArt
          simp [jGetD, haw, hf]
    | null => simp at h'
    | str s => simp at h'
    | int n => simp at h'
    | bool b => simp at h'
    | arr l => simp at h'

/-- Spotify `process_track` succeeds on any well-shaped item. -/
theorem spotifyProcessTrack_ok (fetch : Json → Option PyStr) (w : World)
    (item : Json) (idx : Nat) (h : spWellShaped item = true) :
    isExceptOk (spotifyProcessTrack fetch w item idx) = true := by
  cases item with
  | obj kvs =>
    have h' : (match jGet kvs "track" with
       | none => true
       | some td =>
         if !(isTruthy td) then true
         else
           match td with
           | .obj tkvs =>
             (match jGetD tkvs "type" .null with
              | .str t =>
                if t = pch "track" then
                  (match jGet tkvs "artists" with
                   | none => true
                   | some (.arr l) => l.all fun a => match a with | .obj _ => true | _ => false
                   | some _ => false) &&
                  (match jGet tkvs "album" with
                   | none => true
                   | some (.obj akvs) =>
                     (match jGet akvs "images" with
                      | none => true
                      | some (.arr []) => true
                      | some (.arr (x :: _)) => (match x with | .obj _ => true | _ => false)
                      | some j => !(isTruthy j))
                   | some _ => false) &&
                  (match jGet tkvs "external_urls" with
                   | none => true
                   | some (.obj _) => true
                   | some _ => false) &&
                  (match jGet kvs "added_by" with
                   | none => true
                   | some (.obj _) => true
                   | some _ => false)
                else true
              | _ => true)
           | _ => false) = true := h
    cases htd : jGet kvs "track" with
    | none =>
      have h1 : jGetD kvs "track" (.obj []) = .obj [] := by simp [jGetD, htd]
      simp [spotifyProcessTrack, pyGetD_obj, h1, isTruthy]
    | some td =>
      rw [htd] at h'
      have h1 : jGetD kvs "track" (.obj []) = td := by simp [jGetD, htd]
      by_cases htr : isTruthy td
      · simp only [htr, Bool.not_true] at h'
        rw [if_neg (by simp)] at h'
        cases td with
        | obj tkvs =>
          have hm : (match jGetD tkvs "type" .null with
              | .str t =>
                if t = pch "track" then
                  (match jGet tkvs "artists" with
                   | none => true
                   | some (.arr l) => l.all fun a => match a with | .obj _ => true | _ => false
                   | some _ => false) &&
                  (match jGet tkvs "album" with
                   | none => true
                   | some (.obj akvs) =>
                     (match jGet akvs "images" with
                      | none => true
                      | some (.arr []) => true
                      | some (.arr (x :: _)) => (match x with | .obj _ => true | _ => false)
                      | some j => !(isTruthy j))
                   | some _ => false) &&
                  (match jGet tkvs "external_urls" with
                   | none => true
                   | some (.obj _) => true
                   | some _ => false) &&
                  (match jGet kvs "added_by" with
                   | none => true
                   | some (.obj _) => true
                   | some _ => false)
                else true
              | _ => true) = true := h'
          cases hty : jGetD tkvs "type" .null with
          | str t =>
            rw [hty] at hm
            by_cases htt : t = pch "track"
            · simp only [htt, if_true] at hm
              rw [Bool.and_eq_true] at hm
              obtain ⟨hA, hab⟩ := hm
              rw [Bool.and_eq_true] at hA
              obtain ⟨hB, heu⟩ := hA
              rw [Bool.and_eq_true] at hB
              obtain ⟨hart, halb⟩ := hB
              obtain ⟨⟨t₁, w₁⟩, hbody⟩ := (exceptOk_exists _).mp
                (spotifyProcessBody_ok fetch w kvs tkvs idx hart halb heu hab)
              have hts : isStr (.str t) (pch "track") = true := by simp [isStr, htt]
              simp [spotifyProcessTrack, pyGetD_obj, h1, htr, hty, hts, hbody]
            · have hts : isStr (.str t) (pch "track") = false := by simp [isStr, htt]
              simp [spotifyProcessTrack, pyGetD_obj, h1, htr, hty, hts]
          | null => simp [spotifyProcessTrack, pyGetD_obj, h1, htr, hty, isStr]
          | int n => simp [spotifyProcessTrack, pyGetD_obj, h1, htr, hty, isStr]
          | bool b => simp [spotifyProcessTrack, pyGetD_obj, h1, htr, hty, isStr]
          | arr l => simp [spotifyProcessTrack, pyGetD_obj, h1, htr, hty, isStr]
          | obj o => simp [spotifyProcessTrack, pyGetD_obj, h1, htr, hty, isStr]
        | null => exact absurd htr (by simp [isTruthy])
        | str s => simp at h'
        | int n => simp at h'
        | bool b => simp at h'
        | arr l => simp at h'
      · have hf : isTruthy td = false := Bool.eq_false_iff.mpr htr
        simp [spotifyProcessTrack, pyGetD_obj, h1, hf]
  | null => simp [spWellShaped] at h
  | str s => simp [spWellShaped] at h
  | int n => simp [spWellShaped] at h
  | bool b => simp [spWellShaped] at h
  | arr l => simp [spWellShaped] at h

/-- C4 counterexample: normalization can fail a raw track item.  An Apple
Music item whose `previews` attribute is present but empty raises
`IndexError`; a Spotify item whose `album` is present but `null` raises
`AttributeError`. -/
theorem normalization_failure_counterexample :
    appleProcessTrack fetchNone World.empty
        (.obj [("attributes", .obj [("previews", .arr [])])]) 1 = .error .indexError ∧
    spotifyProcessTrack fetchNone World.empty
        (.obj [("track", .obj [("type", .str (pch "track")), ("album", .null)])]) 1
      = .error .attributeError :=
  ⟨rfl, rfl⟩

/-- C4 (amended): normalization never fails a raw track item whose present
nested fields are well-typed containers (and, on Apple Music, whose present
`previews` list is non-empty); any absent nested field degrades to a
null/empty/default value, as the two concrete minimal items show. -/
theorem normalization_total_on_wellshaped :
    (∀ (fetch : Json → Option PyStr) (w : World) (item : Json) (idx : Nat),
      spWellShaped item = true → ∃ r, spotifyProcessTrack fetch w item idx = .ok r) ∧
    (∀ (fetch : Json → Option PyStr) (w : World) (item : Json) (idx : Nat),
      amWellShaped item = true → ∃ r, appleProcessTrack fetch w item idx = .ok r) ∧
    spotifyProcessTrack fetchNone World.empty c1Item 1
      = .ok (some (spSongRec 1 "Song A"), World.empty) ∧
    appleProcessTrack fetchNone World.empty amItem 1 = .ok (amSongRec, World.empty) := by
  refine ⟨?_, ?_, rfl, rfl⟩
  · intro fetch w item idx h
    exact (exceptOk_exists _).mp (spotifyProcessTrack_ok fetch w item idx h)
  · intro fetch w item idx h
    cases item with
    | obj kvs => exact (exceptOk_exists _).mp (appleProcessTrack_ok fetch w kvs idx h)
    | null => simp [amWellShaped] at h
    | str s => simp [amWellShaped] at h
    | int n => simp [amWellShaped] at h
    | bool b => simp [amWellShaped] at h
    | arr l => simp [amWellShaped] at h

/-- C4 witness: the amended statement at two concrete well-shaped items. -/
theorem normalization_total_witness :
    (spWellShaped keepItem2 = true ∧
      ∃ r, spotifyProcessTrack fetchNone World.empty keepItem2 5 = .ok r) ∧
    (amWellShaped amItem = true ∧
      ∃ r, appleProcessTrack fetchNone World.empty amItem 5 = .ok r) :=
  ⟨⟨rfl, normalization_total_on_wellshaped.1 fetchNone World.empty keepItem2 5 rfl⟩,
   ⟨rfl, normalization_total_on_wellshaped.2.1 fetchNone World.empty amItem 5 rfl⟩⟩

/-- C1 counterexample: with the playlist metadata fetched successfully, the
first track page returning one track and announcing a next page, and the
second page request failing, the run does not abort: it writes a snapshot
built from the partial (one-track) list and returns its path. -/
theorem fetch_error_partial_snapshot :
    ∃ res : SpRunResult,
      spotifyIndexPlaylist fetchNone c1Api (some c1Meta) 3 c1Url c1Now World.empty
        = .ok (some res) ∧
      c1Api 100 100 = none ∧
      res.snapshot.isSome = true ∧
      (res.snapshot.map fun s => s.tracks) = some [spSongRec 1 "Song A"] ∧
      res.ret.isSome = true :=
  ⟨_, rfl, rfl, rfl, rfl, rfl⟩

/-- C1 (amended): a metadata-fetch failure is fatal to the playlist run (the
function returns null and no snapshot is written), but a track-page failure
is not: the pagination loop breaks with the tracks accumulated so far, and
the caller continues and writes a snapshot built from that partial track
list, as the concrete run shows. -/
theorem fetch_error_handling_amended :
    (∀ (fetch : Json → Option PyStr) (api : Nat → Nat → Option Json) (fuel : Nat)
        (url now : PyStr) (w : World),
      spotifyIndexPlaylist fetch api none fuel url now w
        = .ok (some { ret := none, snapshot := none, world := w })) ∧
    (∀ (api : Nat → Nat → Option Json) (fuel offset : Nat) (acc : List Json),
      api 100 offset = none →
      spotifyGetPlaylistTracksAux api (fuel + 1) offset acc = .ok (some acc)) ∧
    (∃ res snap,
      spotifyIndexPlaylist fetchNone c1Api (some c1Meta) 3 c1Url c1Now World.empty
        = .ok (some res) ∧
      res.snapshot = some snap ∧ snap.tracks = [spSongRec 1 "Song A"]) := by
  refine ⟨?_, ?_, ⟨_, _, rfl, rfl, rfl⟩⟩
  · intro fetch api fuel url now w
    simp only [spotifyIndexPlaylist]
    cases hx : spotifyExtractPlaylistId url with
    | none => simp [optStrTruthy, hx]
    | some pid =>
      by_cases hpe : pid.isEmpty
      · simp [optStrTruthy, hx, hpe]
      · simp [optStrTruthy, hx, hpe, optJsonTruthy]
  · intro api fuel offset acc h
    simp [spotifyGetPlaylistTracksAux, h]

/-- C1 witness: the amended statement's pagination clause at a concrete
failing page request. -/
theorem fetch_error_handling_witness :
    c1Api 100 100 = none ∧
    spotifyGetPlaylistTracksAux c1Api 1 100 [c1Item] = .ok (some [c1Item]) :=
  ⟨rfl, fetch_error_handling_amended.2.1 c1Api 0 100 [c1Item] rfl⟩
